import Mathlib

/-!
Authorize.Net client: card validation and response decoding.

A shallow embedding of `authorize.go`:

* `CheckCCLhun`   the Luhn scan with the `DELTA` correction table,
* `ValidateCard`  the card pre-check (expiry, sentinel, CVV, brand rule, Luhn),
* `Post`          the transport outcome handling and the positional decoding
                  of the pipe-delimited response body,
* `AddToUrlValues`, `initData`, `Authorize`, `CapturePreauth`
                  the building of the request parameter set,
* `Wipe`          the reset of a card record.

Go strings are byte sequences, so a string is a list of bytes and `len` is the
length of that list.  A run-time panic (index out of range, nil dereference)
is the value `none`.
-/

set_option autoImplicit false
set_option linter.dupNamespace false

namespace AuthorizeNet

/-! ## Strings and the library functions the source calls -/

/-- A Go string: its bytes, each held as a natural number. -/
abbrev GoString := List Nat

/-- The bytes of an ASCII literal. -/
def str (s : String) : GoString := s.toList.map Char.toNat

/-- Go `strings.Split(s, sep)` for a one-byte separator: the pieces of `s`
between the occurrences of `sep`; the result always has at least one piece. -/
def Split (sep : Nat) : GoString → List GoString
  | [] => [[]]
  | c :: cs =>
    if c = sep then [] :: Split sep cs
    else
      match Split sep cs with
      | [] => [[c]]
      | h :: t => (c :: h) :: t

/-- Go `strings.HasPrefix(s, p)`. -/
def HasPrefix (s p : GoString) : Bool := p.isPrefixOf s

/-- An ASCII decimal digit, `'0'` to `'9'`. -/
def isDigit (b : Nat) : Bool := decide (48 ≤ b) && decide (b ≤ 57)

/-- The value of a run of decimal digits, most significant first. -/
def digitsValue (ds : GoString) : Nat := ds.foldl (fun n b => n * 10 + (b - 48)) 0

/-- Go `strconv.Atoi` on a 64-bit platform: an optional sign followed by one
or more decimal digits, whose value fits a signed 64-bit integer; anything
else is an error (`none`). -/
def Atoi (s : GoString) : Option Int :=
  match s with
  | [] => none
  | c :: rest =>
    let neg := decide (c = 45)
    let ds := if c = 45 ∨ c = 43 then rest else s
    if ds = [] then none
    else if ds.all isDigit then
      let v : Int := if neg then -(digitsValue ds : Int) else (digitsValue ds : Int)
      if -(2 : Int) ^ 63 ≤ v ∧ v ≤ (2 : Int) ^ 63 - 1 then some v else none
    else none

/-- Lower-casing of one ASCII byte: `'A'..'Z'` move to `'a'..'z'`. -/
def lowerByte (b : Nat) : Nat := if 65 ≤ b ∧ b ≤ 90 then b + 32 else b

/-- Go `strings.ToLower`.  A string made of ASCII bytes only is lower-cased
byte by byte; any other string goes through the library's Unicode mapping
`Map(unicode.ToLower, s)`, which is the parameter `uni`. -/
def ToLower (uni : GoString → GoString) (s : GoString) : GoString :=
  if s.all (fun b => decide (b < 128)) then s.map lowerByte else uni s

/-- Two bytes that are equal, or are the upper-case and the lower-case form
of one ASCII letter. -/
def sameLetter (x y : Nat) : Bool :=
  decide (x = y) || (decide (65 ≤ x) && decide (x ≤ 90) && decide (y = x + 32))
    || (decide (65 ≤ y) && decide (y ≤ 90) && decide (x = y + 32))

/-- Two strings that differ only in the case of ASCII letters. -/
def CaseVariant : GoString → GoString → Bool
  | [], [] => true
  | x :: xs, y :: ys => sameLetter x y && CaseVariant xs ys
  | _, _ => false

/-! ## Data model -/

def METHOD_AMEX : GoString := str "amex"
def METHOD_DISCOVER : GoString := str "discover"
def METHOD_MASTERCARD : GoString := str "mastercard"
def METHOD_VISA : GoString := str "visa"

/-- The card record. -/
structure CardInfoType where
  CreditCardNumber : GoString
  CVV : GoString
  Month_Year : GoString
  Method : GoString
  deriving DecidableEq, Repr

/-- The values of Go's `error` that `ValidateCard` can return: `nil` and the
four package-level error variables. -/
inductive Error where
  | nil
  | ErrInvalidCC
  | ErrExpiredCC
  | ErrInvalidCCV
  | ErrUnsupportedCC
  deriving DecidableEq, Repr

open Error

/-! ## Luhn -/

/-- The correction table of `CheckCCLhun`. -/
def DELTA : List Int := [0, 1, 2, 3, 4, -4, -3, -2, -1, 0]

/-- The lookup `DELTA[cn]`: out of range (a panic) unless `0 ≤ cn ≤ 9`. -/
def deltaAt (cn : Int) : Option Int :=
  if 0 ≤ cn then DELTA.get? cn.toNat else none

/-- The body of the loop of `CheckCCLhun`, run over the bytes in scan order
(last byte first) from the state `(checksum, bOdd)`. -/
def lhunLoop : GoString → Int → Bool → Option Int
  | [], checksum, _ => some checksum
  | b :: rest, checksum, bOdd =>
    let cn : Int := (b : Int) - 48
    let checksum := checksum + cn
    if bOdd then
      match deltaAt cn with
      | none => none
      | some d => lhunLoop rest (checksum + d) (!bOdd)
    else lhunLoop rest checksum (!bOdd)

/-- `CheckCCLhun`: scan from the last byte to the first, then test
`checksum % 10 == 0` (Go's `%` is the truncated remainder). -/
def CheckCCLhun (cc : GoString) : Option Bool :=
  match lhunLoop cc.reverse 0 false with
  | none => none
  | some checksum => some (decide (Int.tmod checksum 10 = 0))

/-! ## Card validation -/

/-- The last step of `ValidateCard`: `if CheckCCLhun(number) { return ErrInvalidCC }`
and `return nil` otherwise. -/
def lhunStep (number : GoString) : Option Error :=
  match CheckCCLhun number with
  | none => none
  | some true => some ErrInvalidCC
  | some false => some nil

/-- `CardInfoType.ValidateCard`.  `nowYear` and `nowMonth` are what
`time.Now().Year()` and `int(time.Now().Month())` return during the call
(one reading of the clock).  The `logrus.Errorf` calls are left out, the one
of the default case with its argument `c.Mehotd` included. -/
def ValidateCard (uni : GoString → GoString) (nowYear nowMonth : Int)
    (c : CardInfoType) : Option Error :=
  match Split 47 c.Month_Year with
  | [s0, s1] =>
    match Atoi s0 with
    | none => some ErrExpiredCC
    | some m =>
      match Atoi s1 with
      | none => some ErrExpiredCC
      | some y =>
        if y < nowYear then some ErrExpiredCC
        else if y = nowYear ∧ m ≤ nowMonth then some ErrExpiredCC
        else if c.CreditCardNumber = str "5555555555" then some nil
        else if c.CVV.length < 3 ∨ c.CVV.length > 4 then some ErrInvalidCCV
        else
          let l := c.CreditCardNumber.length
          if l < 13 then some ErrInvalidCC
          else
            let method := ToLower uni c.Method
            if method = METHOD_VISA then
              if !HasPrefix c.CreditCardNumber (str "4") || (l != 16 && l != 13) then
                some ErrInvalidCC
              else lhunStep c.CreditCardNumber
            else if method = METHOD_MASTERCARD then
              if !HasPrefix c.CreditCardNumber (str "5") || l != 16 then
                some ErrInvalidCC
              else lhunStep c.CreditCardNumber
            else if method = METHOD_AMEX then
              if !(HasPrefix c.CreditCardNumber (str "34")
                    || HasPrefix c.CreditCardNumber (str "37")) || l != 15 then
                some ErrInvalidCC
              else lhunStep c.CreditCardNumber
            else if method = METHOD_DISCOVER then
              if !HasPrefix c.CreditCardNumber (str "6011") || l != 16 then
                some ErrInvalidCC
              else lhunStep c.CreditCardNumber
            else some ErrUnsupportedCC
  | _ => some ErrExpiredCC

/-! ## Response decoding -/

/-- The decoded gateway response. -/
structure AuthorizeResponse where
  Amount : GoString := []
  AuthCode : GoString := []
  AvsResp : GoString := []
  CVVResp : GoString := []
  RawData : GoString := []
  ReasonCode : GoString := []
  ReasonText : GoString := []
  RespCode : GoString := []
  IsApproved : Bool := false
  Tax : GoString := []
  TransId : GoString := []
  TransMd5 : GoString := []
  TransType : GoString := []
  deriving DecidableEq, Repr

/-- What `http.PostForm` hands back besides its error: the status code and
the outcome of `ioutil.ReadAll(resp.Body)` (`none` when the read fails). -/
structure HttpResponse where
  StatusCode : Int
  Body : Option GoString
  deriving DecidableEq, Repr

/-- The body of the quote-stripping loop of `Post`: a field longer than one
byte that starts and ends with `"` becomes `vv[1 : len(vv)-1]`. -/
def stripQuote (vv : GoString) : GoString :=
  if vv.length > 1 ∧ vv.take 1 = str "\"" ∧ vv.drop (vv.length - 1) = str "\"" then
    (vv.take (vv.length - 1)).drop 1
  else vv

/-- The decoding step of `Post`: split on `|`, strip the quotes of every
field, read the fixed positions.  An index past the end of `ss` panics. -/
def decodeBody (body : GoString) : Option AuthorizeResponse :=
  let ss := (Split 124 body).map stripQuote
  match ss.get? 0, ss.get? 2, ss.get? 3, ss.get? 4, ss.get? 5, ss.get? 6,
        ss.get? 9, ss.get? 11, ss.get? 32, ss.get? 37, ss.get? 38 with
  | some f0, some f2, some f3, some f4, some f5, some f6,
    some f9, some f11, some f32, some f37, some f38 =>
    some { RespCode := f0
           IsApproved := decide (f0 = str "1")
           ReasonCode := f2
           ReasonText := f3
           AuthCode := f4
           AvsResp := f5
           TransId := f6
           Amount := f9
           TransType := f11
           Tax := f32
           TransMd5 := f37
           CVVResp := f38
           RawData := body }
  | _, _, _, _, _, _, _, _, _, _, _ => none

/-- `AuthorizeNet.Post`, from what `http.PostForm` returned: `resp` (`none`
for a nil response) and `err` (whether the error is non-nil).  The statement
`defer resp.Body.Close()` runs before the error is tested and dereferences
`resp`. -/
def Post (resp : Option HttpResponse) (err : Bool) : Option AuthorizeResponse :=
  match resp with
  | none => none
  | some r =>
    if err then some { ReasonText := str "Failed to connect to payment gateway." }
    else if r.StatusCode ≠ 200 then
      some { ReasonText := str "Payment gateway returned an error." }
    else
      match r.Body with
      | none => some { ReasonText := str "Payment gateway invalid body." }
      | some body => decodeBody body

/-! ## The Luhn checksum as the specification words it -/

/-- The value that replaces a doubled digit: `2d` if `2d ≤ 9`, else `2d - 9`. -/
def luhnReplace (d : Nat) : Nat := if 2 * d ≤ 9 then 2 * d else 2 * d - 9

/-- The reference sum: the digits are numbered from the right starting at 0,
and every digit with an odd number is replaced by `luhnReplace`. -/
def luhnRefSum (digits : List Nat) : Nat :=
  ((digits.reverse.enumFrom 0).map
    (fun p => if p.1 % 2 = 1 then luhnReplace p.2 else p.2)).sum

/-- The reference Luhn check: the reference sum is divisible by 10. -/
def luhnRef (digits : List Nat) : Bool := decide (luhnRefSum digits % 10 = 0)

/-- The digit values of a string of ASCII digits. -/
def digitsOf (s : GoString) : List Nat := s.map (fun b => b - 48)

/-- The response body of the decoding example: 39 fields. -/
def exampleBody : GoString :=
  str "1|1|0||AUTH123|Y|TX789|||5.56||auth_capture|||||||||||||||||||||tax0|||||md5hash|M"

/-- The alternating sum behind both the scan and the reference: the head of
the list is replaced by `luhnReplace` when `dbl` is set, and the flag flips
at every element. -/
def altSum : Bool → List Nat → Nat
  | _, [] => 0
  | dbl, d :: rest => (if dbl then luhnReplace d else d) + altSum (!dbl) rest

/-! ## Request building -/

/-- Go `url.Values` (`map[string][]string`), allocated: what each key maps
to, `none` for a key that is absent. -/
abbrev Values := GoString → Option (List GoString)

/-- The empty map `url.Values{}`. -/
def emptyValues : Values := fun _ => none

/-- The assignment `m[k] = v` (also `m.Set(k, s)` with `v = []string{s}`). -/
def setValue (m : Values) (k : GoString) (v : List GoString) : Values :=
  fun k' => if k' = k then some v else m k'

/-- The transaction record. -/
structure AuthorizeNetType where
  Amount : GoString := []
  BillingAddress : GoString := []
  BillingCity : GoString := []
  BillingCountry : GoString := []
  BillingState : GoString := []
  BillingZip : GoString := []
  Company : GoString := []
  CustomerId : GoString := []
  CustomerIp : GoString := []
  Description : GoString := []
  Email : GoString := []
  FirstName : GoString := []
  InvoiceNumber : GoString := []
  LastName : GoString := []
  Phone : GoString := []
  ShipToAddress : GoString := []
  ShipToCity : GoString := []
  ShipToCompany : GoString := []
  ShipToCountry : GoString := []
  ShipToFirstName : GoString := []
  ShipToLastName : GoString := []
  ShipToState : GoString := []
  ShipToZip : GoString := []
  deriving DecidableEq, Repr

/-- The `authorizeNet` struct tags of `CardInfoType`, in field order. -/
def cardTags : List GoString :=
  [str "x_card_num", str "x_card_code", str "x_exp_date", str "x_method"]

/-- The `authorizeNet` struct tags of `AuthorizeNetType`, in field order. -/
def dataTags : List GoString :=
  [str "x_amount", str "x_address", str "x_city", str "x_country", str "x_state",
   str "x_zip", str "x_company", str "x_cust_id", str "x_customer_ip", str "x_description",
   str "x_email", str "x_first_name", str "x_invoice_num", str "x_last_name", str "x_phone",
   str "x_ship_to_address", str "x_ship_to_city", str "x_ship_to_company",
   str "x_ship_to_country", str "x_ship_to_first_name", str "x_ship_to_last_name",
   str "x_ship_to_state", str "x_ship_to_zip"]

/-- What reflection reads from a `CardInfoType`: for field `i`, the pair of
`st.Field(i).Tag.Get("authorizeNet")` and `sv.FieldByIndex([]int{i}).String()`. -/
def cardFields (c : CardInfoType) : List (GoString × GoString) :=
  cardTags.zip [c.CreditCardNumber, c.CVV, c.Month_Year, c.Method]

/-- What reflection reads from an `AuthorizeNetType`, in field order. -/
def dataFields (a : AuthorizeNetType) : List (GoString × GoString) :=
  dataTags.zip
    [a.Amount, a.BillingAddress, a.BillingCity, a.BillingCountry, a.BillingState,
     a.BillingZip, a.Company, a.CustomerId, a.CustomerIp, a.Description, a.Email,
     a.FirstName, a.InvoiceNumber, a.LastName, a.Phone, a.ShipToAddress, a.ShipToCity,
     a.ShipToCompany, a.ShipToCountry, a.ShipToFirstName, a.ShipToLastName,
     a.ShipToState, a.ShipToZip]

/-- The loop shared by both `AddToUrlValues` methods: for each field in
order, `if val != "" { urlValues[x_name] = []string{val} }`. -/
def addFields (fields : List (GoString × GoString)) (urlValues : Values) : Values :=
  fields.foldl (fun m p => if p.2 ≠ [] then setValue m p.1 [p.2] else m) urlValues

/-- `CardInfoType.AddToUrlValues`: the map after the call. -/
def CardInfoType.AddToUrlValues (c : CardInfoType) (urlValues : Values) : Values :=
  addFields (cardFields c) urlValues

/-- `AuthorizeNetType.AddToUrlValues`: the map after the call. -/
def AuthorizeNetType.AddToUrlValues (a : AuthorizeNetType) (urlValues : Values) : Values :=
  addFields (dataFields a) urlValues

/-- The gateway configuration, Go's `AuthorizeNet` struct. -/
structure AuthorizeNet where
  AuthorizeNetProvider : GoString
  Login : GoString
  Key : GoString
  DupWindow : Int
  TestMode : Bool
  deriving DecidableEq, Repr

/-- `Bool.UpperString`. -/
def UpperString (v : Bool) : GoString := if v then str "TRUE" else str "FALSE"

/-- Go `fmt.Sprintf("%d", n)`. -/
def formatInt (n : Int) : GoString :=
  let ds := (Nat.toDigits 10 n.natAbs).map Char.toNat
  if n < 0 then 45 :: ds else ds

/-- The line `initData` prints for an unpaired trailing key. -/
def needEvenMessage : GoString := str "Need even number of parameters in list\n"

/-- The loop of `initData` over the overrides `ex`, two at a time: a pair is
assigned into `rv`, an unpaired last key prints the message.  The second
component is what has been written to standard output. -/
def initDataLoop : List GoString → Values → List GoString → Values × List GoString
  | k :: v :: rest, rv, out => initDataLoop rest (setValue rv k [v]) out
  | [_], rv, out => (rv, out ++ [needEvenMessage])
  | [], rv, out => (rv, out)

/-- The map literal at the head of `initData`. -/
def fixedFields (a : AuthorizeNet) (ty : GoString) : Values :=
  setValue (setValue (setValue (setValue (setValue (setValue (setValue (setValue emptyValues
    (str "x_type") [ty])
    (str "x_login") [a.Login])
    (str "x_tran_key") [a.Key])
    (str "x_method") [str "CC"])
    (str "x_version") [str "3.1"])
    (str "x_delim_data") [str "TRUE"])
    (str "x_delim_char") [str "|"])
    (str "x_encap_char") [str "\""]

/-- `AuthorizeNet.initData`: the returned map and the lines printed. -/
def initData (a : AuthorizeNet) (ty : GoString) (ex : List GoString) :
    Values × List GoString :=
  initDataLoop ex (fixedFields a ty) []

/-- The parameter set `Authorize` builds and hands to `Post`. -/
def authorizeRequest (a : AuthorizeNet) (card : CardInfoType) (data : AuthorizeNetType)
    (emailCustomer : Bool) : Values :=
  let vals := (initData a (str "AUTH_ONLY")
    [str "x_relay_response", str "FALSE", str "x_duplicate_window", formatInt a.DupWindow,
     str "x_email_customer", UpperString emailCustomer]).1
  let vals := card.AddToUrlValues vals
  let vals := data.AddToUrlValues vals
  setValue vals (str "x_test_request") [UpperString a.TestMode]

/-- The parameter set `CapturePreauth` builds and hands to `Post`. -/
def captureRequest (a : AuthorizeNet) (transactionId amount : GoString) : Values :=
  let data := (initData a (str "PRIOR_AUTH_CAPTURE") [str "x_trans_id", transactionId]).1
  let data := if amount ≠ [] then setValue data (str "x_amount") [amount] else data
  setValue data (str "x_test_request") [UpperString a.TestMode]

/-- `AuthorizeNet.Authorize`; `http url data` is what `http.PostForm` returns
for the request. -/
def Authorize (http : GoString → Values → Option HttpResponse × Bool) (a : AuthorizeNet)
    (card : CardInfoType) (data : AuthorizeNetType) (emailCustomer : Bool) :
    Option AuthorizeResponse :=
  let r := http a.AuthorizeNetProvider (authorizeRequest a card data emailCustomer)
  Post r.1 r.2

/-- `AuthorizeNet.CapturePreauth`. -/
def CapturePreauth (http : GoString → Values → Option HttpResponse × Bool) (a : AuthorizeNet)
    (transactionId amount : GoString) : Option AuthorizeResponse :=
  let r := http a.AuthorizeNetProvider (captureRequest a transactionId amount)
  Post r.1 r.2

/-- `CardInfoType.Wipe` is declared on a value receiver: the call copies the
caller's record into the receiver `c` and assigns the four fields of that
copy.  The result is the pair of the caller's record after the call and the
receiver when the method returns. -/
def Wipe (caller : CardInfoType) : CardInfoType × CardInfoType :=
  let c := caller
  let c := { c with CVV := [], CreditCardNumber := [], Month_Year := [], Method := [] }
  (caller, c)

/-! ## Encapsulated bodies -/

/-- Go `strings.Join(parts, sep)` for a one-byte separator. -/
def Join (sep : Nat) : List GoString → GoString
  | [] => []
  | [a] => a
  | a :: b :: rest => a ++ sep :: Join sep (b :: rest)

/-- A value wrapped in one pair of double quotes. -/
def encapsulate (v : GoString) : GoString := 34 :: v ++ [34]

/-- The card of the published example. -/
def exampleCard : CardInfoType :=
  ⟨str "4111111111111111", str "555", str "11/2018", METHOD_VISA⟩

/-- The configuration of the published example. -/
def exampleAuth : AuthorizeNet :=
  { AuthorizeNetProvider := [], Login := str "<YourLogin>", Key := str "<YourKey>",
    DupWindow := 120, TestMode := true }

/-- The transaction record of the published example. -/
def exampleData : AuthorizeNetType :=
  { InvoiceNumber := str "123", Amount := str "5.56", Description := str "My Test transaction" }

/-- Thirty-nine field values: a plain one, an empty one, one that carries
its own quotes, then padding. -/
def exampleValues : List GoString :=
  [str "1", str "", str "\"q\"", str ""] ++ List.replicate 35 (str "x")

/-! ## Quote stripping as the specification words it -/

/-- The specification's stripping of one field: a field wrapped in a pair of
double quotes (a leading `"`, then a rest that ends with `"`) loses exactly
that leading and that trailing quote; any other field is kept as it is. -/
def unquoteSpec : GoString → GoString
  | [] => []
  | x :: rest => if x = 34 ∧ rest.getLast? = some 34 then rest.dropLast else x :: rest

/-- The response body of the decoding example with the fields at positions
0, 2, 4, 6 and 9 wrapped in double quotes: 39 fields. -/
def exampleQuotedBody : GoString :=
  str ("\"1\"|1|\"0\"||\"AUTH123\"|Y|\"TX789\"|||\"5.56\"||auth_capture||||||||||"
    ++ "|||||||||||tax0|||||md5hash|M")

/-! ## Luhn: the scan computes the reference checksum -/

theorem isDigit_iff (b : Nat) : isDigit b = true ↔ 48 ≤ b ∧ b ≤ 57 := by
  simp [isDigit]

theorem altSum_append (a b : List Nat) (dbl : Bool) :
    altSum dbl (a ++ b) = altSum dbl a + altSum (xor dbl (decide (a.length % 2 = 1))) b := by
  induction a generalizing dbl with
  | nil => simp [altSum]
  | cons d r ih =>
    have hpar : xor (!dbl) (decide (r.length % 2 = 1))
        = xor dbl (decide ((r.length + 1) % 2 = 1)) := by
      rcases Nat.mod_two_eq_zero_or_one r.length with h | h <;>
        cases dbl <;> simp [h, Nat.succ_mod_two_eq_one_iff, Nat.add_mod]
    rw [List.cons_append]
    simp only [altSum, List.length_cons]
    rw [ih, hpar]
    omega

theorem enumFrom_sum_eq_altSum (l : List Nat) (n : Nat) :
    ((l.enumFrom n).map (fun p => if p.1 % 2 = 1 then luhnReplace p.2 else p.2)).sum
      = altSum (decide (n % 2 = 1)) l := by
  induction l generalizing n with
  | nil => simp [altSum]
  | cons d r ih =>
    have hpar : decide ((n + 1) % 2 = 1) = !decide (n % 2 = 1) := by
      rcases Nat.mod_two_eq_zero_or_one n with h | h <;> simp [h, Nat.add_mod]
    simp only [List.enumFrom_cons, List.map_cons, List.sum_cons, ih, altSum, hpar]
    by_cases h : n % 2 = 1 <;> simp [h]

theorem luhnRefSum_eq_altSum (digits : List Nat) :
    luhnRefSum digits = altSum false digits.reverse := by
  simp [luhnRefSum, enumFrom_sum_eq_altSum]

theorem lhunLoop_digits (l : GoString) (checksum : Int) (bOdd : Bool)
    (h : ∀ b ∈ l, isDigit b = true) :
    lhunLoop l checksum bOdd = some (checksum + (altSum bOdd (digitsOf l) : Nat)) := by
  induction l generalizing checksum bOdd with
  | nil => simp [lhunLoop, altSum, digitsOf]
  | cons x r ih =>
    have hx := (isDigit_iff x).1 (h x (List.mem_cons_self x r))
    have hr : ∀ b ∈ r, isDigit b = true := fun b hb => h b (List.mem_cons_of_mem x hb)
    obtain ⟨k, rfl⟩ : ∃ k, x = 48 + k := ⟨x - 48, by omega⟩
    have hk : k ≤ 9 := by omega
    cases bOdd
    · simp only [lhunLoop, digitsOf, List.map_cons, altSum, Bool.not_false] at *
      rw [ih _ _ hr]
      simp only [Bool.false_eq_true, if_false]
      congr 1
      push_cast
      omega
    · interval_cases k <;>
        simp [lhunLoop, deltaAt, DELTA, digitsOf, altSum, luhnReplace, ih _ _ hr] <;>
        omega

theorem CheckCCLhun_digits (s : GoString) (h : ∀ b ∈ s, isDigit b = true) :
    CheckCCLhun s = some (decide (altSum false (digitsOf s).reverse % 10 = 0)) := by
  have hrev : ∀ b ∈ s.reverse, isDigit b = true := fun b hb => h b (List.mem_reverse.1 hb)
  have hmap : digitsOf s.reverse = (digitsOf s).reverse := by simp [digitsOf]
  simp only [CheckCCLhun, lhunLoop_digits _ _ _ hrev, hmap, zero_add]
  congr 1
  rw [Int.tmod_eq_emod (by positivity) (by decide)]
  simp only [decide_eq_decide]
  omega

theorem altSum_reverse_digits (pre post : GoString) (x : Nat) :
    altSum false (digitsOf (pre ++ x :: post)).reverse
      = altSum false (digitsOf post).reverse
        + ((if decide (post.length % 2 = 1) then luhnReplace (x - 48) else x - 48)
          + altSum (!decide (post.length % 2 = 1)) (digitsOf pre).reverse) := by
  simp [digitsOf, altSum_append, altSum]

theorem luhnReplace_apart (a b : Nat) (ha : a ≤ 9) (hb : b ≤ 9) (hab : a ≠ b) :
    luhnReplace a ≠ luhnReplace b ∧ luhnReplace a ≤ 9 ∧ luhnReplace b ≤ 9 := by
  unfold luhnReplace
  split <;> split <;> omega

theorem CheckCCLhun_change (pre post : GoString) (x d : Nat)
    (h : ∀ b ∈ pre ++ x :: post, isDigit b = true) (hd : isDigit d = true) (hxd : x ≠ d)
    (hs : CheckCCLhun (pre ++ x :: post) = some true) :
    CheckCCLhun (pre ++ d :: post) = some false := by
  have hx := (isDigit_iff x).1 (h x (by simp))
  have hd2 := (isDigit_iff d).1 hd
  have h2 : ∀ b ∈ pre ++ d :: post, isDigit b = true := by
    intro b hb
    rcases List.mem_append.1 hb with hb | hb
    · exact h b (List.mem_append.2 (Or.inl hb))
    · rcases List.mem_cons.1 hb with hb | hb
      · exact hb ▸ hd
      · exact h b (List.mem_append.2 (Or.inr (List.mem_cons_of_mem x hb)))
  rw [CheckCCLhun_digits _ h, altSum_reverse_digits] at hs
  rw [CheckCCLhun_digits _ h2, altSum_reverse_digits]
  have hap := luhnReplace_apart (x - 48) (d - 48) (by omega) (by omega) (by omega)
  simp only [Option.some.injEq, decide_eq_true_eq] at hs
  simp only [Option.some.injEq, decide_eq_false_iff_not]
  by_cases hpar : post.length % 2 = 1 <;>
    simp only [hpar, decide_True, decide_False, if_true, if_false, Bool.false_eq_true] at hs ⊢ <;>
    omega

/-! ## Card validation: evaluation of the published example -/

/-- C1: the number 4111111111111111 passes the Luhn check and meets the visa
rule, with CVV 555 and an expiry in the future, and `ValidateCard` returns
`ErrInvalidCC` for it; the same card with the last digit changed to 2 fails
the Luhn check and `ValidateCard` returns no error. -/
theorem ValidateCard_example_rejected :
    CheckCCLhun (str "4111111111111111") = some true
    ∧ ValidateCard id 2018 1
        ⟨str "4111111111111111", str "555", str "11/2018", METHOD_VISA⟩ = some ErrInvalidCC
    ∧ CheckCCLhun (str "4111111111111112") = some false
    ∧ ValidateCard id 2018 1
        ⟨str "4111111111111112", str "555", str "11/2018", METHOD_VISA⟩ = some nil := by
  decide

/-- C2: on every string of ASCII digits `CheckCCLhun` returns the verdict of
the reference Luhn checksum, and for every digit `d` the sum `d + DELTA[d]` is
the reference replacement value of `d`. -/
theorem CheckCCLhun_refines_luhnRef (s : GoString) (h : s.all isDigit = true) :
    CheckCCLhun s = some (luhnRef (digitsOf s))
    ∧ ∀ d : Fin 10, (deltaAt (d.val : Int)).map (fun x => (d.val : Int) + x)
        = some ((luhnReplace d.val : Nat) : Int) := by
  refine ⟨?_, by decide⟩
  rw [CheckCCLhun_digits s (List.all_eq_true.1 h), luhnRef, luhnRefSum_eq_altSum]

theorem CheckCCLhun_refines_luhnRef_witness :
    (str "4111111111111111").all isDigit = true
    ∧ CheckCCLhun (str "4111111111111111") = some (luhnRef (digitsOf (str "4111111111111111")))
    ∧ luhnRef (digitsOf (str "4111111111111111")) = true :=
  ⟨by decide, (CheckCCLhun_refines_luhnRef (str "4111111111111111") (by decide)).1, by decide⟩

/-- C3: if a digit string passes `CheckCCLhun`, replacing the digit at any
position by a different digit gives a string that fails `CheckCCLhun`. -/
theorem CheckCCLhun_detects_single_digit_error (s : GoString)
    (h : s.all isDigit = true) (hs : CheckCCLhun s = some true)
    (i : Nat) (hi : i < s.length) (d : Nat) (hd : isDigit d = true)
    (hne : s.get? i ≠ some d) :
    CheckCCLhun (s.set i d) = some false := by
  have hsplit : s = s.take i ++ s.get ⟨i, hi⟩ :: s.drop (i + 1) := by
    rw [List.get_eq_getElem, List.getElem_cons_drop, List.take_append_drop]
  have hset : s.set i d = s.take i ++ d :: s.drop (i + 1) := by
    rw [List.set_eq_take_append_cons_drop, if_pos hi]
  have hxd : s.get ⟨i, hi⟩ ≠ d := by
    intro hc
    apply hne
    rw [List.get?_eq_get hi, hc]
  have hall : ∀ b ∈ s, isDigit b = true := List.all_eq_true.1 h
  rw [hset]
  exact CheckCCLhun_change _ _ _ _ (hsplit ▸ hall) hd hxd (hsplit ▸ hs)

theorem CheckCCLhun_detects_single_digit_error_witness :
    CheckCCLhun (str "4111111111111111") = some true
    ∧ CheckCCLhun ((str "4111111111111111").set 0 53) = some false
    ∧ CheckCCLhun ((str "4111111111111111").set 15 50) = some false :=
  ⟨by decide,
   CheckCCLhun_detects_single_digit_error (str "4111111111111111") (by decide) (by decide)
     0 (by decide) 53 (by decide) (by decide),
   CheckCCLhun_detects_single_digit_error (str "4111111111111111") (by decide) (by decide)
     15 (by decide) 50 (by decide) (by decide)⟩

/-! ## Card validation: the checks in order -/

/-- With an expiry in the future, a CVV of 3 or 4 bytes, a number other than
the sentinel and a number that meets the rule of its brand, the result of
`ValidateCard` is that of its last step: `ErrInvalidCC` when `CheckCCLhun`
is true, no error when it is false. -/
theorem ValidateCard_brand_ok (uni : GoString → GoString) (cy cm : Int)
    (c : CardInfoType) (a b : GoString) (m y : Int)
    (hsplit : Split 47 c.Month_Year = [a, b]) (hm : Atoi a = some m) (hy : Atoi b = some y)
    (hfut : cy < y ∨ (y = cy ∧ cm < m))
    (hcvv : c.CVV.length = 3 ∨ c.CVV.length = 4)
    (hnum : c.CreditCardNumber ≠ str "5555555555")
    (hrule :
      (ToLower uni c.Method = METHOD_VISA
        ∧ HasPrefix c.CreditCardNumber (str "4") = true
        ∧ (c.CreditCardNumber.length = 13 ∨ c.CreditCardNumber.length = 16))
      ∨ (ToLower uni c.Method = METHOD_MASTERCARD
        ∧ HasPrefix c.CreditCardNumber (str "5") = true
        ∧ c.CreditCardNumber.length = 16)
      ∨ (ToLower uni c.Method = METHOD_AMEX
        ∧ (HasPrefix c.CreditCardNumber (str "34") = true
            ∨ HasPrefix c.CreditCardNumber (str "37") = true)
        ∧ c.CreditCardNumber.length = 15)
      ∨ (ToLower uni c.Method = METHOD_DISCOVER
        ∧ HasPrefix c.CreditCardNumber (str "6011") = true
        ∧ c.CreditCardNumber.length = 16)) :
    ValidateCard uni cy cm c = lhunStep c.CreditCardNumber := by
  have d : METHOD_VISA ≠ METHOD_MASTERCARD ∧ METHOD_VISA ≠ METHOD_AMEX
      ∧ METHOD_VISA ≠ METHOD_DISCOVER ∧ METHOD_MASTERCARD ≠ METHOD_AMEX
      ∧ METHOD_MASTERCARD ≠ METHOD_DISCOVER ∧ METHOD_AMEX ≠ METHOD_DISCOVER := by decide
  obtain ⟨d1, d2, d3, d4, d5, d6⟩ := d
  have e1 : ¬ y < cy := by omega
  have e2 : ¬ (y = cy ∧ m ≤ cm) := by omega
  have e3 : ¬ (c.CVV.length < 3 ∨ c.CVV.length > 4) := by omega
  have e4 : ¬ c.CreditCardNumber.length < 13 := by
    rcases hrule with ⟨_, _, h⟩ | ⟨_, _, h⟩ | ⟨_, _, h⟩ | ⟨_, _, h⟩ <;> omega
  simp only [ValidateCard, hsplit, hm, hy, if_neg e1, if_neg e2, if_neg hnum, if_neg e3,
    if_neg e4]
  rcases hrule with ⟨hb, hp, hl⟩ | ⟨hb, hp, hl⟩ | ⟨hb, hp, hl⟩ | ⟨hb, hp, hl⟩
  · rw [hb, if_pos rfl, if_neg]
    rcases hl with hl | hl <;> simp [hp, hl]
  · rw [hb, if_neg d1.symm, if_pos rfl, if_neg]
    simp [hp, hl]
  · rw [hb, if_neg d2.symm, if_neg d4.symm, if_pos rfl, if_neg]
    rcases hp with hp | hp <;> simp [hp, hl]
  · rw [hb, if_neg d3.symm, if_neg d5.symm, if_neg d6.symm, if_pos rfl, if_neg]
    simp [hp, hl]

theorem lhunStep_ne_expired (n : GoString) : lhunStep n ≠ some ErrExpiredCC := by
  unfold lhunStep
  split <;> simp

theorem lhunStep_ne_unsupported (n : GoString) : lhunStep n ≠ some ErrUnsupportedCC := by
  unfold lhunStep
  split <;> simp

/-- C4: when the expiry parses as month `m` and year `y`, `ValidateCard`
returns `ErrExpiredCC` exactly when `y` is before the current year, or `y` is
the current year and `m` is at most the current month. -/
theorem ValidateCard_expired_iff (uni : GoString → GoString) (cy cm : Int)
    (c : CardInfoType) (a b : GoString) (m y : Int)
    (hsplit : Split 47 c.Month_Year = [a, b]) (hm : Atoi a = some m) (hy : Atoi b = some y) :
    ValidateCard uni cy cm c = some ErrExpiredCC ↔ (y < cy ∨ (y = cy ∧ m ≤ cm)) := by
  have h1 := lhunStep_ne_expired c.CreditCardNumber
  simp only [ValidateCard, hsplit, hm, hy]
  constructor
  · intro h
    by_contra hcon
    rw [not_or] at hcon
    rw [if_neg hcon.1, if_neg hcon.2] at h
    revert h
    repeat' split
    all_goals first | exact fun h => absurd h h1 | exact fun h => nomatch h
  · rintro (h | h)
    · rw [if_pos h]
    · split_ifs <;> rfl

theorem ValidateCard_expired_iff_witness :
    ValidateCard id 2018 11
        ⟨str "4111111111111111", str "555", str "11/2018", METHOD_VISA⟩ = some ErrExpiredCC
    ∧ ValidateCard id 2018 11
        ⟨str "4111111111111111", str "555", str "12/2018", METHOD_VISA⟩ ≠ some ErrExpiredCC :=
  ⟨(ValidateCard_expired_iff id 2018 11
      ⟨str "4111111111111111", str "555", str "11/2018", METHOD_VISA⟩
      (str "11") (str "2018") 11 2018 (by decide) (by decide) (by decide)).2 (by decide),
   fun h => absurd ((ValidateCard_expired_iff id 2018 11
      ⟨str "4111111111111111", str "555", str "12/2018", METHOD_VISA⟩
      (str "12") (str "2018") 12 2018 (by decide) (by decide) (by decide)).1 h) (by decide)⟩

/-- C5: when `Month_Year` does not split on `/` into exactly two parts, or
one of the two parts is not accepted by `Atoi`, `ValidateCard` returns
`ErrExpiredCC`, whatever the number, CVV and brand are. -/
theorem ValidateCard_malformed_date (uni : GoString → GoString) (cy cm : Int)
    (c : CardInfoType)
    (h : (Split 47 c.Month_Year).length ≠ 2
      ∨ ∃ a b, Split 47 c.Month_Year = [a, b] ∧ (Atoi a = none ∨ Atoi b = none)) :
    ValidateCard uni cy cm c = some ErrExpiredCC := by
  rcases h with h | ⟨a, b, hsplit, h | h⟩
  · unfold ValidateCard
    split
    · next s0 s1 heq => rw [heq] at h; exact absurd rfl h
    · rfl
  · simp only [ValidateCard, hsplit, h]
  · simp only [ValidateCard, hsplit, h]
    cases Atoi a <;> rfl

theorem ValidateCard_malformed_date_witness :
    ValidateCard id 2018 1 ⟨str "5555555555", str "555", str "11-2030", METHOD_VISA⟩
      = some ErrExpiredCC
    ∧ ValidateCard id 2018 1 ⟨str "5555555555", str "555", str "11/20x0", METHOD_VISA⟩
      = some ErrExpiredCC :=
  ⟨ValidateCard_malformed_date id 2018 1 _ (Or.inl (by decide)),
   ValidateCard_malformed_date id 2018 1 _
     (Or.inr ⟨str "11", str "20x0", by decide, Or.inr (by decide)⟩)⟩

theorem method_constants_distinct :
    METHOD_VISA ≠ METHOD_MASTERCARD ∧ METHOD_VISA ≠ METHOD_AMEX
    ∧ METHOD_VISA ≠ METHOD_DISCOVER ∧ METHOD_MASTERCARD ≠ METHOD_AMEX
    ∧ METHOD_MASTERCARD ≠ METHOD_DISCOVER ∧ METHOD_AMEX ≠ METHOD_DISCOVER := by
  decide

/-- C6: with an expiry in the future, a CVV of 3 or 4 bytes, a number other
than the sentinel and a recognised (lower-cased) brand, a number that breaks
the prefix or length rule of its brand makes `ValidateCard` return
`ErrInvalidCC`. -/
theorem ValidateCard_brand_rule (uni : GoString → GoString) (cy cm : Int)
    (c : CardInfoType) (a b : GoString) (m y : Int)
    (hsplit : Split 47 c.Month_Year = [a, b]) (hm : Atoi a = some m) (hy : Atoi b = some y)
    (hfut : cy < y ∨ (y = cy ∧ cm < m))
    (hcvv : c.CVV.length = 3 ∨ c.CVV.length = 4)
    (hnum : c.CreditCardNumber ≠ str "5555555555")
    (hviol :
      (ToLower uni c.Method = METHOD_VISA
        ∧ ¬ (HasPrefix c.CreditCardNumber (str "4") = true
              ∧ (c.CreditCardNumber.length = 13 ∨ c.CreditCardNumber.length = 16)))
      ∨ (ToLower uni c.Method = METHOD_MASTERCARD
        ∧ ¬ (HasPrefix c.CreditCardNumber (str "5") = true
              ∧ c.CreditCardNumber.length = 16))
      ∨ (ToLower uni c.Method = METHOD_AMEX
        ∧ ¬ ((HasPrefix c.CreditCardNumber (str "34") = true
                ∨ HasPrefix c.CreditCardNumber (str "37") = true)
              ∧ c.CreditCardNumber.length = 15))
      ∨ (ToLower uni c.Method = METHOD_DISCOVER
        ∧ ¬ (HasPrefix c.CreditCardNumber (str "6011") = true
              ∧ c.CreditCardNumber.length = 16))) :
    ValidateCard uni cy cm c = some ErrInvalidCC := by
  obtain ⟨d1, d2, d3, d4, d5, d6⟩ := method_constants_distinct
  have e1 : ¬ y < cy := by omega
  have e2 : ¬ (y = cy ∧ m ≤ cm) := by omega
  have e3 : ¬ (c.CVV.length < 3 ∨ c.CVV.length > 4) := by omega
  simp only [ValidateCard, hsplit, hm, hy, if_neg e1, if_neg e2, if_neg hnum, if_neg e3]
  by_cases hl : c.CreditCardNumber.length < 13
  · rw [if_pos hl]
  · rw [if_neg hl]
    rcases hviol with ⟨hb, hv⟩ | ⟨hb, hv⟩ | ⟨hb, hv⟩ | ⟨hb, hv⟩
    · rw [hb, if_pos rfl, if_pos]
      revert hv
      cases HasPrefix c.CreditCardNumber (str "4") <;> simp
      omega
    · rw [hb, if_neg d1.symm, if_pos rfl, if_pos]
      revert hv
      cases HasPrefix c.CreditCardNumber (str "5") <;> simp
    · rw [hb, if_neg d2.symm, if_neg d4.symm, if_pos rfl, if_pos]
      revert hv
      cases HasPrefix c.CreditCardNumber (str "34") <;>
        cases HasPrefix c.CreditCardNumber (str "37") <;> simp
    · rw [hb, if_neg d3.symm, if_neg d5.symm, if_neg d6.symm, if_pos rfl, if_pos]
      revert hv
      cases HasPrefix c.CreditCardNumber (str "6011") <;> simp

theorem ValidateCard_brand_rule_witness :
    ValidateCard id 2018 1
      ⟨str "5111111111111111", str "555", str "11/2018", str "Visa"⟩ = some ErrInvalidCC :=
  ValidateCard_brand_rule id 2018 1
    ⟨str "5111111111111111", str "555", str "11/2018", str "Visa"⟩
    (str "11") (str "2018") 11 2018 (by decide) (by decide) (by decide) (by decide)
    (by decide) (by decide) (Or.inl (by decide))

theorem ToLower_caseVariant (uni : GoString → GoString) (m1 m2 : GoString)
    (hv : CaseVariant m1 m2 = true) (hascii : ∀ b ∈ m1, b < 128) :
    ToLower uni m1 = ToLower uni m2 := by
  have key : ∀ (l1 l2 : GoString), CaseVariant l1 l2 = true → (∀ b ∈ l1, b < 128) →
      (∀ b ∈ l2, b < 128) ∧ l1.map lowerByte = l2.map lowerByte := by
    intro l1
    induction l1 with
    | nil =>
      intro l2 h _
      cases l2 with
      | nil => simp
      | cons y ys => simp [CaseVariant] at h
    | cons x xs ih =>
      intro l2 h hall
      cases l2 with
      | nil => simp [CaseVariant] at h
      | cons y ys =>
        simp only [CaseVariant, Bool.and_eq_true] at h
        have hx : x < 128 := hall x (List.mem_cons_self x xs)
        obtain ⟨ih1, ih2⟩ := ih ys h.2 (fun b hb => hall b (List.mem_cons_of_mem x hb))
        have hxy : y < 128 ∧ lowerByte x = lowerByte y := by
          have h1 := h.1
          simp only [sameLetter, Bool.or_eq_true, Bool.and_eq_true, decide_eq_true_eq] at h1
          unfold lowerByte
          rcases h1 with (h1 | h1) | h1
          · subst h1; exact ⟨hx, rfl⟩
          · refine ⟨by omega, ?_⟩
            split <;> split <;> omega
          · refine ⟨by omega, ?_⟩
            split <;> split <;> omega
        constructor
        · intro b hb
          rcases List.mem_cons.1 hb with hb | hb
          · exact hb ▸ hxy.1
          · exact ih1 b hb
        · simp only [List.map_cons, hxy.2, ih2]
  obtain ⟨h2, hmap⟩ := key m1 m2 hv hascii
  have a1 : m1.all (fun b => decide (b < 128)) = true := by simpa using hascii
  have a2 : m2.all (fun b => decide (b < 128)) = true := by simpa using h2
  simp only [ToLower, a1, a2, if_true, hmap]

theorem ValidateCard_unsupported_lowered (uni : GoString → GoString) (cy cm : Int)
    (c : CardInfoType) (a b : GoString) (m y : Int)
    (hsplit : Split 47 c.Month_Year = [a, b]) (hm : Atoi a = some m) (hy : Atoi b = some y)
    (hfut : cy < y ∨ (y = cy ∧ cm < m))
    (hnum : c.CreditCardNumber ≠ str "5555555555") (hlen : 13 ≤ c.CreditCardNumber.length)
    (hcvv : c.CVV.length = 3 ∨ c.CVV.length = 4) :
    ValidateCard uni cy cm c = some ErrUnsupportedCC ↔
      (ToLower uni c.Method ≠ METHOD_VISA ∧ ToLower uni c.Method ≠ METHOD_MASTERCARD
        ∧ ToLower uni c.Method ≠ METHOD_AMEX ∧ ToLower uni c.Method ≠ METHOD_DISCOVER) := by
  have h1 := lhunStep_ne_unsupported c.CreditCardNumber
  have e1 : ¬ y < cy := by omega
  have e2 : ¬ (y = cy ∧ m ≤ cm) := by omega
  have e3 : ¬ (c.CVV.length < 3 ∨ c.CVV.length > 4) := by omega
  have e4 : ¬ c.CreditCardNumber.length < 13 := by omega
  simp only [ValidateCard, hsplit, hm, hy, if_neg e1, if_neg e2, if_neg hnum, if_neg e3,
    if_neg e4]
  constructor
  · intro h
    obtain ⟨d1, d2, d3, d4, d5, d6⟩ := method_constants_distinct
    refine ⟨?_, ?_, ?_, ?_⟩ <;> intro hb <;> revert h
    · rw [hb, if_pos rfl]
      split
      all_goals first | exact fun h => absurd h h1 | exact fun h => nomatch h
    · rw [hb, if_neg d1.symm, if_pos rfl]
      split
      all_goals first | exact fun h => absurd h h1 | exact fun h => nomatch h
    · rw [hb, if_neg d2.symm, if_neg d4.symm, if_pos rfl]
      split
      all_goals first | exact fun h => absurd h h1 | exact fun h => nomatch h
    · rw [hb, if_neg d3.symm, if_neg d5.symm, if_neg d6.symm, if_pos rfl]
      split
      all_goals first | exact fun h => absurd h h1 | exact fun h => nomatch h
  · rintro ⟨n1, n2, n3, n4⟩
    rw [if_neg n1, if_neg n2, if_neg n3, if_neg n4]

theorem lowerByte_eq_iff_sameLetter (x y : Nat) (hy : 97 ≤ y ∧ y ≤ 122) :
    lowerByte x = y ↔ sameLetter x y = true := by
  simp only [sameLetter, lowerByte, Bool.or_eq_true, Bool.and_eq_true, decide_eq_true_eq]
  split <;> omega

theorem map_lowerByte_eq_iff_caseVariant (m brand : GoString)
    (hb : ∀ y ∈ brand, 97 ≤ y ∧ y ≤ 122) :
    m.map lowerByte = brand ↔ CaseVariant m brand = true := by
  induction m generalizing brand with
  | nil =>
    cases brand with
    | nil => simp [CaseVariant]
    | cons y ys => simp [CaseVariant]
  | cons x xs ih =>
    cases brand with
    | nil => simp [CaseVariant]
    | cons y ys =>
      have hy := hb y (List.mem_cons_self y ys)
      have hys : ∀ z ∈ ys, 97 ≤ z ∧ z ≤ 122 := fun z hz => hb z (List.mem_cons_of_mem y hz)
      simp only [List.map_cons, List.cons.injEq, CaseVariant, Bool.and_eq_true,
        lowerByte_eq_iff_sameLetter x y hy, ih ys hys]

theorem sameLetter_symm (x y : Nat) : sameLetter x y = sameLetter y x := by
  simp only [sameLetter, Bool.or_assoc]
  rw [Bool.or_comm (decide (65 ≤ x) && decide (x ≤ 90) && decide (y = x + 32))]
  congr 1
  exact decide_eq_decide.2 ⟨Eq.symm, Eq.symm⟩

theorem CaseVariant_symm (l1 l2 : GoString) : CaseVariant l1 l2 = CaseVariant l2 l1 := by
  induction l1 generalizing l2 with
  | nil => cases l2 <;> simp [CaseVariant]
  | cons x xs ih =>
    cases l2 with
    | nil => simp [CaseVariant]
    | cons y ys => simp only [CaseVariant, sameLetter_symm x y, ih ys]

theorem CaseVariant_ascii (l1 l2 : GoString) (hv : CaseVariant l1 l2 = true)
    (h1 : ∀ b ∈ l1, b < 128) : ∀ b ∈ l2, b < 128 := by
  induction l1 generalizing l2 with
  | nil =>
    cases l2 with
    | nil => simp
    | cons y ys => simp [CaseVariant] at hv
  | cons x xs ih =>
    cases l2 with
    | nil => simp [CaseVariant] at hv
    | cons y ys =>
      simp only [CaseVariant, Bool.and_eq_true] at hv
      have hx : x < 128 := h1 x (List.mem_cons_self x xs)
      have hy : y < 128 := by
        have hs := hv.1
        simp only [sameLetter, Bool.or_eq_true, Bool.and_eq_true, decide_eq_true_eq] at hs
        omega
      intro b hb
      rcases List.mem_cons.1 hb with hb | hb
      · exact hb ▸ hy
      · exact ih ys hv.2 (fun z hz => h1 z (List.mem_cons_of_mem x hz)) b hb

theorem CaseVariant_map_lowerByte (l1 l2 : GoString) (hv : CaseVariant l1 l2 = true) :
    l1.map lowerByte = l2.map lowerByte := by
  induction l1 generalizing l2 with
  | nil =>
    cases l2 with
    | nil => rfl
    | cons y ys => simp [CaseVariant] at hv
  | cons x xs ih =>
    cases l2 with
    | nil => simp [CaseVariant] at hv
    | cons y ys =>
      simp only [CaseVariant, Bool.and_eq_true] at hv
      have hxy : lowerByte x = lowerByte y := by
        have hs := hv.1
        simp only [sameLetter, Bool.or_eq_true, Bool.and_eq_true, decide_eq_true_eq] at hs
        unfold lowerByte
        split <;> split <;> omega
      simp only [List.map_cons, hxy, ih ys hv.2]

theorem ToLower_ascii (uni : GoString → GoString) (s : GoString) (h : ∀ b ∈ s, b < 128) :
    ToLower uni s = s.map lowerByte := by
  have a1 : s.all (fun b => decide (b < 128)) = true := by simpa using h
  simp only [ToLower, a1, if_true]

theorem ToLower_not_ascii (uni : GoString → GoString) (s : GoString)
    (h : ¬ ∀ b ∈ s, b < 128) : ToLower uni s = uni s := by
  have a1 : ¬ s.all (fun b => decide (b < 128)) = true := by simpa using h
  unfold ToLower
  rw [if_neg a1]

theorem brand_bytes_lower :
    (∀ y ∈ METHOD_VISA, 97 ≤ y ∧ y ≤ 122) ∧ (∀ y ∈ METHOD_MASTERCARD, 97 ≤ y ∧ y ≤ 122)
    ∧ (∀ y ∈ METHOD_AMEX, 97 ≤ y ∧ y ≤ 122) ∧ (∀ y ∈ METHOD_DISCOVER, 97 ≤ y ∧ y ≤ 122) := by
  decide

theorem ToLower_respects_caseVariant (uni : GoString → GoString)
    (huni : ∀ m1 m2 : GoString, CaseVariant m1 m2 = true → uni m1 = uni m2)
    (m1 m2 : GoString) (hv : CaseVariant m1 m2 = true) :
    ToLower uni m1 = ToLower uni m2 := by
  by_cases h1 : ∀ b ∈ m1, b < 128
  · rw [ToLower_ascii uni m1 h1, ToLower_ascii uni m2 (CaseVariant_ascii m1 m2 hv h1)]
    exact CaseVariant_map_lowerByte m1 m2 hv
  · have h2 : ¬ ∀ b ∈ m2, b < 128 := fun h =>
      h1 (CaseVariant_ascii m2 m1 (by rw [CaseVariant_symm]; exact hv) h)
    rw [ToLower_not_ascii uni m1 h1, ToLower_not_ascii uni m2 h2]
    exact huni m1 m2 hv

/-- C7: with an expiry in the future, a number other than the sentinel of at
least 13 bytes and a CVV of 3 or 4 bytes, `ValidateCard` returns
`ErrUnsupportedCC` exactly when the lower-cased `Method` is none of visa,
mastercard, amex, discover: for a `Method` of ASCII bytes that is exactly
when `Method` is not one of the four names written in any mix of upper and
lower case, and for any other `Method` exactly when the library's Unicode
lower-casing of it is none of the four names.  Two cards whose `Method`
fields have the same lower-cased form and whose other fields agree get the
same result; two ASCII strings that differ only in letter case have the same
lower-cased form; and when the Unicode lower-casing does not tell apart
strings that differ only in the case of ASCII letters, two cards whose
`Method` fields differ only in that way get the same result. -/
theorem ValidateCard_unsupported_iff (uni : GoString → GoString) (cy cm : Int) :
    (∀ (c : CardInfoType) (a b : GoString) (m y : Int),
      Split 47 c.Month_Year = [a, b] → Atoi a = some m → Atoi b = some y →
      (cy < y ∨ (y = cy ∧ cm < m)) →
      c.CreditCardNumber ≠ str "5555555555" → 13 ≤ c.CreditCardNumber.length →
      (c.CVV.length = 3 ∨ c.CVV.length = 4) →
      (ValidateCard uni cy cm c = some ErrUnsupportedCC ↔
        (ToLower uni c.Method ≠ METHOD_VISA ∧ ToLower uni c.Method ≠ METHOD_MASTERCARD
          ∧ ToLower uni c.Method ≠ METHOD_AMEX ∧ ToLower uni c.Method ≠ METHOD_DISCOVER))
      ∧ ((∀ x ∈ c.Method, x < 128) →
          (ValidateCard uni cy cm c = some ErrUnsupportedCC ↔
            (CaseVariant c.Method (str "visa") = false
              ∧ CaseVariant c.Method (str "mastercard") = false
              ∧ CaseVariant c.Method (str "amex") = false
              ∧ CaseVariant c.Method (str "discover") = false)))
      ∧ ((¬ ∀ x ∈ c.Method, x < 128) →
          (ValidateCard uni cy cm c = some ErrUnsupportedCC ↔
            (uni c.Method ≠ str "visa" ∧ uni c.Method ≠ str "mastercard"
              ∧ uni c.Method ≠ str "amex" ∧ uni c.Method ≠ str "discover"))))
    ∧ (∀ (c : CardInfoType) (method2 : GoString),
        ToLower uni c.Method = ToLower uni method2 →
        ValidateCard uni cy cm { c with Method := method2 } = ValidateCard uni cy cm c)
    ∧ (∀ (m1 m2 : GoString), CaseVariant m1 m2 = true → (∀ b ∈ m1, b < 128) →
        ToLower uni m1 = ToLower uni m2)
    ∧ ((∀ m1 m2 : GoString, CaseVariant m1 m2 = true → uni m1 = uni m2) →
        ∀ (c : CardInfoType) (method2 : GoString), CaseVariant c.Method method2 = true →
        ValidateCard uni cy cm { c with Method := method2 } = ValidateCard uni cy cm c) := by
  refine ⟨?_, ?_, fun m1 m2 hv ha => ToLower_caseVariant uni m1 m2 hv ha, ?_⟩
  · intro c a b m y hsplit hm hy hfut hnum hlen hcvv
    have hlow := ValidateCard_unsupported_lowered uni cy cm c a b m y hsplit hm hy hfut hnum
      hlen hcvv
    obtain ⟨b1, b2, b3, b4⟩ := brand_bytes_lower
    refine ⟨hlow, fun hascii => ?_, fun hnot => ?_⟩
    · have hT : ToLower uni c.Method = c.Method.map lowerByte := by
        have a1 : c.Method.all (fun b => decide (b < 128)) = true := by simpa using hascii
        unfold ToLower
        rw [if_pos a1]
      rw [hlow, hT]
      have k1 := map_lowerByte_eq_iff_caseVariant c.Method METHOD_VISA b1
      have k2 := map_lowerByte_eq_iff_caseVariant c.Method METHOD_MASTERCARD b2
      have k3 := map_lowerByte_eq_iff_caseVariant c.Method METHOD_AMEX b3
      have k4 := map_lowerByte_eq_iff_caseVariant c.Method METHOD_DISCOVER b4
      simp only [METHOD_VISA, METHOD_MASTERCARD, METHOD_AMEX, METHOD_DISCOVER] at k1 k2 k3 k4 ⊢
      rw [Ne, Ne, Ne, Ne, k1, k2, k3, k4]
      simp only [Bool.not_eq_true]
    · have hT : ToLower uni c.Method = uni c.Method := by
        have a1 : ¬ c.Method.all (fun b => decide (b < 128)) = true := by simpa using hnot
        unfold ToLower
        rw [if_neg a1]
      rw [hlow, hT]
      simp only [METHOD_VISA, METHOD_MASTERCARD, METHOD_AMEX, METHOD_DISCOVER]
  · intro c method2 heq
    simp only [ValidateCard, heq]
  · intro huni c method2 hv
    have heq := ToLower_respects_caseVariant uni huni c.Method method2 hv
    simp only [ValidateCard, heq]

theorem ValidateCard_unsupported_iff_witness :
    ValidateCard id 2018 1
      ⟨str "4111111111111111", str "555", str "11/2018", str "diners"⟩ = some ErrUnsupportedCC
    ∧ ValidateCard id 2018 1
        ⟨str "4111111111111111", str "555", str "11/2018", str "ViSa"⟩ ≠ some ErrUnsupportedCC
    ∧ ValidateCard id 2018 1
        ⟨str "5111111111111111", str "555", str "11/2018", str "MASTERCARD"⟩
      ≠ some ErrUnsupportedCC
    ∧ ValidateCard id 2018 1
        ⟨str "341111111111111", str "5555", str "11/2018", str "Amex"⟩ ≠ some ErrUnsupportedCC
    ∧ ValidateCard id 2018 1
        ⟨str "6011111111111111", str "555", str "11/2018", str "dIsCoVeR"⟩
      ≠ some ErrUnsupportedCC
    ∧ ValidateCard id 2018 1
        ⟨str "4111111111111111", str "555", str "11/2018", [118, 233, 115, 97]⟩
      = some ErrUnsupportedCC
    ∧ ValidateCard id 2018 1
        ⟨str "4111111111111111", str "555", str "11/2018", str "VISA"⟩
      = ValidateCard id 2018 1
        ⟨str "4111111111111111", str "555", str "11/2018", str "visa"⟩
    ∧ ValidateCard (List.map lowerByte) 2018 1
        ⟨str "5111111111111111", str "555", str "11/2018", str "MasterCard"⟩
      = ValidateCard (List.map lowerByte) 2018 1
        ⟨str "5111111111111111", str "555", str "11/2018", str "mastercard"⟩
    ∧ ValidateCard id 2018 1
        ⟨str "4111111111111112", str "555", str "11/2018", str "ViSa"⟩ = some nil
    ∧ ValidateCard id 2018 1
        ⟨str "6011111111111111", str "555", str "11/2018", str "DISCOVER"⟩ = some nil :=
  ⟨((ValidateCard_unsupported_iff id 2018 1).1
      ⟨str "4111111111111111", str "555", str "11/2018", str "diners"⟩
      (str "11") (str "2018") 11 2018 (by decide) (by decide) (by decide) (by decide)
      (by decide) (by decide) (by decide)).2.1 (by decide) |>.2 (by decide),
   fun h => absurd ((((ValidateCard_unsupported_iff id 2018 1).1
      ⟨str "4111111111111111", str "555", str "11/2018", str "ViSa"⟩
      (str "11") (str "2018") 11 2018 (by decide) (by decide) (by decide) (by decide)
      (by decide) (by decide) (by decide)).2.1 (by decide)).1 h).1 (by decide),
   fun h => absurd ((((ValidateCard_unsupported_iff id 2018 1).1
      ⟨str "5111111111111111", str "555", str "11/2018", str "MASTERCARD"⟩
      (str "11") (str "2018") 11 2018 (by decide) (by decide) (by decide) (by decide)
      (by decide) (by decide) (by decide)).2.1 (by decide)).1 h).2.1 (by decide),
   fun h => absurd ((((ValidateCard_unsupported_iff id 2018 1).1
      ⟨str "341111111111111", str "5555", str "11/2018", str "Amex"⟩
      (str "11") (str "2018") 11 2018 (by decide) (by decide) (by decide) (by decide)
      (by decide) (by decide) (by decide)).2.1 (by decide)).1 h).2.2.1 (by decide),
   fun h => absurd ((((ValidateCard_unsupported_iff id 2018 1).1
      ⟨str "6011111111111111", str "555", str "11/2018", str "dIsCoVeR"⟩
      (str "11") (str "2018") 11 2018 (by decide) (by decide) (by decide) (by decide)
      (by decide) (by decide) (by decide)).2.1 (by decide)).1 h).2.2.2 (by decide),
   ((ValidateCard_unsupported_iff id 2018 1).1
      ⟨str "4111111111111111", str "555", str "11/2018", [118, 233, 115, 97]⟩
      (str "11") (str "2018") 11 2018 (by decide) (by decide) (by decide) (by decide)
      (by decide) (by decide) (by decide)).2.2 (by decide) |>.2 (by decide),
   (ValidateCard_unsupported_iff id 2018 1).2.1
      ⟨str "4111111111111111", str "555", str "11/2018", str "visa"⟩ (str "VISA")
      ((ValidateCard_unsupported_iff id 2018 1).2.2.1 (str "visa") (str "VISA")
        (by decide) (by decide)),
   (ValidateCard_unsupported_iff (List.map lowerByte) 2018 1).2.2.2
      (fun m1 m2 hv => CaseVariant_map_lowerByte m1 m2 hv)
      ⟨str "5111111111111111", str "555", str "11/2018", str "mastercard"⟩ (str "MasterCard")
      (by decide),
   by decide, by decide⟩

/-- C8: with an expiry in the future and a number other than the sentinel, a
CVV whose length is neither 3 nor 4 makes `ValidateCard` return
`ErrInvalidCCV`, whatever the number and the brand are. -/
theorem ValidateCard_cvv_length (uni : GoString → GoString) (cy cm : Int)
    (c : CardInfoType) (a b : GoString) (m y : Int)
    (hsplit : Split 47 c.Month_Year = [a, b]) (hm : Atoi a = some m) (hy : Atoi b = some y)
    (hfut : cy < y ∨ (y = cy ∧ cm < m))
    (hnum : c.CreditCardNumber ≠ str "5555555555")
    (hcvv : c.CVV.length ≠ 3 ∧ c.CVV.length ≠ 4) :
    ValidateCard uni cy cm c = some ErrInvalidCCV := by
  have e1 : ¬ y < cy := by omega
  have e2 : ¬ (y = cy ∧ m ≤ cm) := by omega
  have e3 : c.CVV.length < 3 ∨ c.CVV.length > 4 := by omega
  simp only [ValidateCard, hsplit, hm, hy, if_neg e1, if_neg e2, if_neg hnum, if_pos e3]

theorem ValidateCard_cvv_length_witness :
    ValidateCard id 2018 1 ⟨str "x", str "55555", str "11/2018", str "none"⟩
      = some ErrInvalidCCV :=
  ValidateCard_cvv_length id 2018 1 ⟨str "x", str "55555", str "11/2018", str "none"⟩
    (str "11") (str "2018") 11 2018 (by decide) (by decide) (by decide) (by decide)
    (by decide) (by decide)

/-- C9: a card whose number is the sentinel 5555555555 and whose expiry
passes the date check is accepted by `ValidateCard` (no error), for every CVV
and every `Method`. -/
theorem ValidateCard_sentinel (uni : GoString → GoString) (cy cm : Int)
    (c : CardInfoType) (a b : GoString) (m y : Int)
    (hsplit : Split 47 c.Month_Year = [a, b]) (hm : Atoi a = some m) (hy : Atoi b = some y)
    (hfut : cy < y ∨ (y = cy ∧ cm < m))
    (hnum : c.CreditCardNumber = str "5555555555") :
    ValidateCard uni cy cm c = some nil := by
  have e1 : ¬ y < cy := by omega
  have e2 : ¬ (y = cy ∧ m ≤ cm) := by omega
  simp only [ValidateCard, hsplit, hm, hy, if_neg e1, if_neg e2, if_pos hnum]

theorem ValidateCard_sentinel_witness :
    (str "5555555555").length < 13
    ∧ ValidateCard id 2018 1 ⟨str "5555555555", str "", str "11/2018", str "diners"⟩
      = some nil :=
  ⟨by decide,
   ValidateCard_sentinel id 2018 1 ⟨str "5555555555", str "", str "11/2018", str "diners"⟩
    (str "11") (str "2018") 11 2018 (by decide) (by decide) (by decide) (by decide)
    (by decide)⟩

/-! ## Response decoding -/

theorem decodeBody_fields (body : GoString) (h : 39 ≤ (Split 124 body).length) :
    ∃ r, decodeBody body = some r
      ∧ ((Split 124 body).get? 0).map stripQuote = some r.RespCode
      ∧ ((Split 124 body).get? 2).map stripQuote = some r.ReasonCode
      ∧ ((Split 124 body).get? 3).map stripQuote = some r.ReasonText
      ∧ ((Split 124 body).get? 4).map stripQuote = some r.AuthCode
      ∧ ((Split 124 body).get? 5).map stripQuote = some r.AvsResp
      ∧ ((Split 124 body).get? 6).map stripQuote = some r.TransId
      ∧ ((Split 124 body).get? 9).map stripQuote = some r.Amount
      ∧ ((Split 124 body).get? 11).map stripQuote = some r.TransType
      ∧ ((Split 124 body).get? 32).map stripQuote = some r.Tax
      ∧ ((Split 124 body).get? 37).map stripQuote = some r.TransMd5
      ∧ ((Split 124 body).get? 38).map stripQuote = some r.CVVResp
      ∧ (r.IsApproved = true ↔ ((Split 124 body).get? 0).map stripQuote = some (str "1"))
      ∧ r.RawData = body := by
  have g : ∀ k, k < 39 → ∃ f, (Split 124 body)[k]? = some f := fun k hk =>
    ⟨_, List.getElem?_eq_getElem (Nat.lt_of_lt_of_le hk h)⟩
  obtain ⟨f0, e0⟩ := g 0 (by decide)
  obtain ⟨f2, e2⟩ := g 2 (by decide)
  obtain ⟨f3, e3⟩ := g 3 (by decide)
  obtain ⟨f4, e4⟩ := g 4 (by decide)
  obtain ⟨f5, e5⟩ := g 5 (by decide)
  obtain ⟨f6, e6⟩ := g 6 (by decide)
  obtain ⟨f9, e9⟩ := g 9 (by decide)
  obtain ⟨f11, e11⟩ := g 11 (by decide)
  obtain ⟨f32, e32⟩ := g 32 (by decide)
  obtain ⟨f37, e37⟩ := g 37 (by decide)
  obtain ⟨f38, e38⟩ := g 38 (by decide)
  simp only [decodeBody, List.get?_eq_getElem?, List.getElem?_map, e0, e2, e3, e4, e5, e6, e9, e11, e32, e37, e38,
    Option.map_some']
  refine ⟨_, rfl, rfl, rfl, rfl, rfl, rfl, rfl, rfl, rfl, rfl, rfl, rfl, ?_, rfl⟩
  simp

/-- C10: when the body of a successfully read 200 response splits on `|`
into at least 39 fields, `Post` returns a response whose `RespCode`,
`ReasonCode`, `ReasonText`, `AuthCode`, `AvsResp`, `TransId`, `Amount`,
`TransType`, `Tax`, `TransMd5` and `CVVResp` are the fields 0, 2, 3, 4, 5, 6,
9, 11, 32, 37 and 38 with one wrapping pair of double quotes removed (as the
specification words it, `unquoteSpec`), whose `IsApproved` holds exactly when
the quote-stripped field 0 is `1`, and whose `RawData` is the body. -/
theorem Post_decodes_fixed_positions (body : GoString)
    (h : 39 ≤ (Split 124 body).length) :
    ∃ r, Post (some ⟨200, some body⟩) false = some r
      ∧ ((Split 124 body).get? 0).map unquoteSpec = some r.RespCode
      ∧ ((Split 124 body).get? 2).map unquoteSpec = some r.ReasonCode
      ∧ ((Split 124 body).get? 3).map unquoteSpec = some r.ReasonText
      ∧ ((Split 124 body).get? 4).map unquoteSpec = some r.AuthCode
      ∧ ((Split 124 body).get? 5).map unquoteSpec = some r.AvsResp
      ∧ ((Split 124 body).get? 6).map unquoteSpec = some r.TransId
      ∧ ((Split 124 body).get? 9).map unquoteSpec = some r.Amount
      ∧ ((Split 124 body).get? 11).map unquoteSpec = some r.TransType
      ∧ ((Split 124 body).get? 32).map unquoteSpec = some r.Tax
      ∧ ((Split 124 body).get? 37).map unquoteSpec = some r.TransMd5
      ∧ ((Split 124 body).get? 38).map unquoteSpec = some r.CVVResp
      ∧ (r.IsApproved = true ↔ ((Split 124 body).get? 0).map unquoteSpec = some (str "1"))
      ∧ r.RawData = body := by
  have hp : Post (some ⟨200, some body⟩) false = decodeBody body := by
    simp [Post]
  have hs : str "\"" = [34] := by decide
  have hfun : stripQuote = unquoteSpec := by
    funext vv
    cases vv with
    | nil => simp [stripQuote, unquoteSpec, hs]
    | cons x rest =>
      rcases List.eq_nil_or_concat rest with hnil | ⟨L, b, hcat⟩
      · subst hnil
        simp [stripQuote, unquoteSpec, hs]
      · subst hcat
        have hd : (x :: (L ++ [b])).drop (L.length + 1) = [b] := by simp
        have ht : (x :: (L ++ [b])).take (L.length + 1) = x :: L := by simp
        have hlen : (x :: (L ++ [b])).length - 1 = L.length + 1 := by simp
        have hgt : (x :: (L ++ [b])).length > 1 := by simp
        have hlast : (L ++ [b]).getLast? = some b := by simp
        have hdl : (L ++ [b]).dropLast = L := by simp
        simp only [stripQuote, unquoteSpec, hs, hlen, hd, ht, hlast, hdl, hgt, true_and]
        by_cases hx : x = 34 <;> by_cases hb : b = 34 <;> simp [hx, hb]
  rw [hp, ← hfun]
  exact decodeBody_fields body h

theorem Post_decodes_fixed_positions_witness :
    39 ≤ (Split 124 exampleQuotedBody).length
    ∧ (Split 124 exampleQuotedBody).get? 0 = some (str "\"1\"")
    ∧ (Split 124 exampleQuotedBody).get? 6 = some (str "\"TX789\"")
    ∧ (Split 124 exampleQuotedBody).get? 9 = some (str "\"5.56\"")
    ∧ (Post (some ⟨200, some exampleQuotedBody⟩) false).map
        (fun r => (r.IsApproved, r.RespCode, r.TransId, r.Amount, r.RawData))
      = some (true, str "1", str "TX789", str "5.56", exampleQuotedBody)
    ∧ 39 ≤ (Split 124 exampleBody).length
    ∧ (Post (some ⟨200, some exampleBody⟩) false).map
        (fun r => (r.IsApproved, r.TransId, r.Amount, r.RawData))
      = some (true, str "TX789", str "5.56", exampleBody)
    ∧ (decodeBody exampleQuotedBody).map (fun r => (r.ReasonCode, r.AuthCode, r.CVVResp))
      = some (str "0", str "AUTH123", str "M") := by
  refine ⟨by decide, by decide, by decide, by decide, ?_, by decide, ?_, by decide⟩
  · obtain ⟨r, hr, h0, _, _, _, _, h6, h9, _, _, _, _, happ, hraw⟩ :=
      Post_decodes_fixed_positions exampleQuotedBody (by decide)
    have e0 : ((Split 124 exampleQuotedBody).get? 0).map unquoteSpec = some (str "1") := by
      decide
    have e6 : ((Split 124 exampleQuotedBody).get? 6).map unquoteSpec = some (str "TX789") := by
      decide
    have e9 : ((Split 124 exampleQuotedBody).get? 9).map unquoteSpec = some (str "5.56") := by
      decide
    rw [hr, Option.map_some', happ.2 e0, Option.some.inj (h0.symm.trans e0),
      Option.some.inj (h6.symm.trans e6), Option.some.inj (h9.symm.trans e9), hraw]
  · obtain ⟨r, hr, h0, _, _, _, _, h6, h9, _, _, _, _, happ, hraw⟩ :=
      Post_decodes_fixed_positions exampleBody (by decide)
    have e6 : ((Split 124 exampleBody).get? 6).map unquoteSpec = some (str "TX789") := by
      decide
    have e9 : ((Split 124 exampleBody).get? 9).map unquoteSpec = some (str "5.56") := by decide
    rw [hr, Option.map_some', happ.2 (by decide), Option.some.inj (h6.symm.trans e6),
      Option.some.inj (h9.symm.trans e9), hraw]

/-! ## Quote stripping and short bodies -/

theorem Split_append_sep (sep : Nat) (a rest : GoString) (ha : sep ∉ a) :
    Split sep (a ++ sep :: rest) = a :: Split sep rest := by
  induction a with
  | nil => simp [Split]
  | cons c a ih =>
    have hc : c ≠ sep := fun h => ha (h ▸ List.mem_cons_self c a)
    have ha2 : sep ∉ a := fun h => ha (List.mem_cons_of_mem c h)
    simp [Split, hc, ih ha2]

theorem Split_no_sep (sep : Nat) (a : GoString) (ha : sep ∉ a) : Split sep a = [a] := by
  induction a with
  | nil => simp [Split]
  | cons c a ih =>
    have hc : c ≠ sep := fun h => ha (h ▸ List.mem_cons_self c a)
    have ha2 : sep ∉ a := fun h => ha (List.mem_cons_of_mem c h)
    simp [Split, hc, ih ha2]

theorem Split_Join (sep : Nat) (l : List GoString) (hne : l ≠ [])
    (h : ∀ v ∈ l, sep ∉ v) : Split sep (Join sep l) = l := by
  induction l with
  | nil => exact absurd rfl hne
  | cons a rest ih =>
    cases rest with
    | nil => simpa [Join] using Split_no_sep sep a (h a (List.mem_cons_self a []))
    | cons b rest2 =>
      have ha : sep ∉ a := h a (List.mem_cons_self a _)
      have hr : ∀ v ∈ b :: rest2, sep ∉ v := fun v hv => h v (List.mem_cons_of_mem a hv)
      rw [Join, Split_append_sep sep a _ ha, ih (List.cons_ne_nil b rest2) hr]

theorem stripQuote_encapsulate (v : GoString) : stripQuote (encapsulate v) = v := by
  have hd : (34 :: (v ++ [34])).drop (v.length + 1) = [34] := by
    simp
  have ht : (34 :: (v ++ [34])).take (v.length + 1) = 34 :: v := by
    simp
  have hs : str "\"" = [34] := by decide
  simp only [stripQuote, encapsulate, hs, List.length_cons, List.length_append,
    List.length_singleton, Nat.add_sub_cancel, hd, ht]
  simp

theorem stripQuote_unchanged (vv : GoString)
    (h : ¬ (vv.head? = some 34 ∧ vv.getLast? = some 34) ∨ vv = str "\"") :
    stripQuote vv = vv := by
  have hs : str "\"" = [34] := by decide
  unfold stripQuote
  rw [hs]
  split
  · next hc =>
    obtain ⟨hlen, htake, hdrop⟩ := hc
    rcases h with h | h
    · exfalso
      apply h
      constructor
      · cases vv with
        | nil => simp at hlen
        | cons x xs => simpa using htake
      · have hcat := List.take_append_drop (vv.length - 1) vv
        rw [hdrop] at hcat
        rw [← hcat, List.getLast?_append]
        simp
    · rw [h, hs] at hlen
      simp at hlen
  · rfl

theorem decodeBody_short (body : GoString) (h : (Split 124 body).length < 39) :
    decodeBody body = none := by
  have h38 : ((Split 124 body).map stripQuote).get? 38 = none := by
    rw [List.get?_eq_none, List.length_map]
    omega
  unfold decodeBody
  simp only [h38]
  split
  · next heq => simp at heq
  · rfl

/-- C11: when at least 39 values without `|` are each wrapped in one pair of
double quotes and joined with `|`, `Post` decodes every surfaced field to the
original value at its position; and `stripQuote` returns unchanged a field
that is not both started and ended by a double quote, or that is the single
character `"`. -/
theorem Post_undoes_encapsulation (vals : List GoString) (hlen : 39 ≤ vals.length)
    (hno : vals.all (fun v => decide (124 ∉ v)) = true) :
    (∃ r, Post (some ⟨200, some (Join 124 (vals.map encapsulate))⟩) false = some r
      ∧ vals.get? 0 = some r.RespCode
      ∧ vals.get? 2 = some r.ReasonCode
      ∧ vals.get? 3 = some r.ReasonText
      ∧ vals.get? 4 = some r.AuthCode
      ∧ vals.get? 5 = some r.AvsResp
      ∧ vals.get? 6 = some r.TransId
      ∧ vals.get? 9 = some r.Amount
      ∧ vals.get? 11 = some r.TransType
      ∧ vals.get? 32 = some r.Tax
      ∧ vals.get? 37 = some r.TransMd5
      ∧ vals.get? 38 = some r.CVVResp)
    ∧ (∀ vv : GoString,
        (¬ (vv.head? = some 34 ∧ vv.getLast? = some 34) ∨ vv = str "\"") →
        stripQuote vv = vv) := by
  refine ⟨?_, stripQuote_unchanged⟩
  have hne : vals.map encapsulate ≠ [] := by
    intro hc
    have hl := congrArg List.length hc
    rw [List.length_map, List.length_nil] at hl
    omega
  have hsep : ∀ v ∈ vals.map encapsulate, 124 ∉ v := by
    intro v hv
    obtain ⟨w, hw, rfl⟩ := List.mem_map.1 hv
    have h1 : 124 ∉ w := by simpa using List.all_eq_true.1 hno w hw
    simp [encapsulate, h1]
  have hs : Split 124 (Join 124 (vals.map encapsulate)) = vals.map encapsulate :=
    Split_Join 124 _ hne hsep
  have conv : ∀ k, ((Split 124 (Join 124 (vals.map encapsulate))).get? k).map stripQuote
      = vals.get? k := by
    intro k
    rw [hs]
    simp only [List.get?_eq_getElem?, List.getElem?_map, Option.map_map]
    cases vals[k]? <;> simp [stripQuote_encapsulate]
  obtain ⟨r, hr, h0, h2, h3, h4, h5, h6, h9, h11, h32, h37, h38, _, _⟩ :=
    decodeBody_fields (Join 124 (vals.map encapsulate)) (by rw [hs]; simpa using hlen)
  have hp : Post (some ⟨200, some (Join 124 (vals.map encapsulate))⟩) false
      = decodeBody (Join 124 (vals.map encapsulate)) := by
    simp [Post]
  rw [conv] at h0 h2 h3 h4 h5 h6 h9 h11 h32 h37 h38
  exact ⟨r, hp.trans hr, h0, h2, h3, h4, h5, h6, h9, h11, h32, h37, h38⟩

theorem Post_undoes_encapsulation_witness :
    39 ≤ exampleValues.length
    ∧ exampleValues.all (fun v => decide (124 ∉ v)) = true
    ∧ (Post (some ⟨200, some (Join 124 (exampleValues.map encapsulate))⟩) false).map
        (fun r => (r.RespCode, r.ReasonCode, r.ReasonText))
      = some (str "1", str "\"q\"", str "")
    ∧ stripQuote (str "\"") = str "\""
    ∧ stripQuote (str "\"ab") = str "\"ab" := by
  obtain ⟨⟨r, hr, h0, h2, h3, _⟩, hun⟩ :=
    Post_undoes_encapsulation exampleValues (by decide) (by decide)
  have e0 : exampleValues.get? 0 = some (str "1") := by decide
  have e2 : exampleValues.get? 2 = some (str "\"q\"") := by decide
  have e3 : exampleValues.get? 3 = some (str "") := by decide
  refine ⟨by decide, by decide, ?_, hun _ (Or.inr rfl), hun _ (Or.inl (by decide))⟩
  rw [hr, Option.map_some', ← Option.some.inj (e0.symm.trans h0),
    ← Option.some.inj (e2.symm.trans h2), ← Option.some.inj (e3.symm.trans h3)]

/-- C12: for a successfully read 200 response whose body is empty, or is the
three-field body `1|1|0`, `Post` does not return a response: an index at a
fixed position is out of range and the call panics. -/
theorem Post_short_body_panics :
    (Split 124 []).length = 1
    ∧ Post (some ⟨200, some []⟩) false = none
    ∧ (Split 124 (str "1|1|0")).length = 3
    ∧ Post (some ⟨200, some (str "1|1|0")⟩) false = none := by
  decide

/-! ## Field mapping -/

theorem addFields_cons (p : GoString × GoString) (fs : List (GoString × GoString))
    (P : Values) :
    addFields (p :: fs) P = addFields fs (if p.2 ≠ [] then setValue P p.1 [p.2] else P) := by
  simp [addFields]

theorem addFields_untouched (fs : List (GoString × GoString)) (P : Values) (k : GoString)
    (h : ∀ p ∈ fs, p.1 = k → p.2 = []) : addFields fs P k = P k := by
  induction fs generalizing P with
  | nil => rfl
  | cons p fs ih =>
    rw [addFields_cons, ih _ (fun q hq => h q (List.mem_cons_of_mem p hq))]
    by_cases hv : p.2 = []
    · simp [hv]
    · have hk : k ≠ p.1 := fun hc => hv (h p (List.mem_cons_self p fs) hc.symm)
      simp [hv, setValue, hk]

theorem addFields_assigned (fs : List (GoString × GoString))
    (hnd : (fs.map Prod.fst).Nodup) (P : Values) (p : GoString × GoString)
    (hp : p ∈ fs) (hv : p.2 ≠ []) : addFields fs P p.1 = some [p.2] := by
  induction fs generalizing P with
  | nil => simp at hp
  | cons q fs ih =>
    rw [List.map_cons, List.nodup_cons] at hnd
    rw [addFields_cons]
    rcases List.mem_cons.1 hp with hpq | hpq
    · subst hpq
      have hno : ∀ r ∈ fs, r.1 = p.1 → r.2 = [] := by
        intro r hr hr1
        exact absurd (List.mem_map.2 ⟨r, hr, hr1⟩) hnd.1
      rw [addFields_untouched fs _ p.1 hno]
      simp [hv, setValue]
    · exact ih hnd.2 _ hpq

theorem addFields_all_empty (fs : List (GoString × GoString)) (P : Values)
    (h : ∀ p ∈ fs, p.2 = []) : addFields fs P = P :=
  funext fun k => addFields_untouched fs P k (fun p hp _ => h p hp)

theorem addFields_single (fs : List (GoString × GoString))
    (hnd : (fs.map Prod.fst).Nodup) (p : GoString × GoString) (hp : p ∈ fs)
    (hv : p.2 ≠ []) (hothers : ∀ q ∈ fs, q.1 ≠ p.1 → q.2 = []) :
    addFields fs emptyValues = setValue emptyValues p.1 [p.2] := by
  funext k
  by_cases hk : k = p.1
  · subst hk
    rw [addFields_assigned fs hnd _ p hp hv]
    simp [setValue]
  · rw [addFields_untouched fs _ k (fun q hq hq1 => hothers q hq (fun hc => hk (hq1 ▸ hc)))]
    simp [setValue, hk]

theorem addFields_frame (fs : List (GoString × GoString))
    (hnd : (fs.map Prod.fst).Nodup) (P : Values) :
    (∀ p ∈ fs, (p.2 ≠ [] → addFields fs P p.1 = some [p.2])
        ∧ (p.2 = [] → addFields fs P p.1 = P p.1))
    ∧ (∀ k, (∀ p ∈ fs, p.1 = k → p.2 = []) → addFields fs P k = P k) := by
  refine ⟨fun p hp => ⟨fun hv => addFields_assigned fs hnd P p hp hv, fun hv => ?_⟩,
    fun k h => addFields_untouched fs P k h⟩
  apply addFields_untouched
  intro q hq hq1
  have hqp : q = p := List.inj_on_of_nodup_map hnd hq hp hq1
  rw [hqp]
  exact hv

theorem cardTags_nodup (c : CardInfoType) : ((cardFields c).map Prod.fst).Nodup := by
  have h : (cardFields c).map Prod.fst = cardTags := rfl
  rw [h]
  decide

theorem dataTags_nodup (a : AuthorizeNetType) : ((dataFields a).map Prod.fst).Nodup := by
  have h : (dataFields a).map Prod.fst = dataTags := rfl
  rw [h]
  decide

/-- C13: for a card record, a transaction record and a parameter set `P`,
`AddToUrlValues` maps the wire name of every non-empty field to the
one-element list holding the field value, leaves the entry of the wire name
of an empty field as it was in `P`, and leaves unchanged every key that is
not the wire name of a non-empty field; a record whose fields are all empty
leaves `P` unchanged, and on the empty parameter set a record with exactly
one non-empty field gives exactly the one parameter under its wire name. -/
theorem AddToUrlValues_frame (card : CardInfoType) (data : AuthorizeNetType) (P : Values) :
    ((∀ p ∈ cardFields card, (p.2 ≠ [] → card.AddToUrlValues P p.1 = some [p.2])
        ∧ (p.2 = [] → card.AddToUrlValues P p.1 = P p.1))
      ∧ (∀ k, (∀ p ∈ cardFields card, p.1 = k → p.2 = []) → card.AddToUrlValues P k = P k))
    ∧ ((∀ p ∈ dataFields data, (p.2 ≠ [] → data.AddToUrlValues P p.1 = some [p.2])
        ∧ (p.2 = [] → data.AddToUrlValues P p.1 = P p.1))
      ∧ (∀ k, (∀ p ∈ dataFields data, p.1 = k → p.2 = []) → data.AddToUrlValues P k = P k))
    ∧ ((∀ p ∈ cardFields card, p.2 = []) → card.AddToUrlValues P = P)
    ∧ ((∀ p ∈ dataFields data, p.2 = []) → data.AddToUrlValues P = P)
    ∧ (∀ p ∈ cardFields card, p.2 ≠ [] → (∀ q ∈ cardFields card, q.1 ≠ p.1 → q.2 = []) →
        card.AddToUrlValues emptyValues = setValue emptyValues p.1 [p.2])
    ∧ (∀ p ∈ dataFields data, p.2 ≠ [] → (∀ q ∈ dataFields data, q.1 ≠ p.1 → q.2 = []) →
        data.AddToUrlValues emptyValues = setValue emptyValues p.1 [p.2]) :=
  ⟨addFields_frame _ (cardTags_nodup card) P,
   addFields_frame _ (dataTags_nodup data) P,
   addFields_all_empty _ P,
   addFields_all_empty _ P,
   fun p hp hv ho => addFields_single _ (cardTags_nodup card) p hp hv ho,
   fun p hp hv ho => addFields_single _ (dataTags_nodup data) p hp hv ho⟩

theorem AddToUrlValues_frame_witness :
    CardInfoType.AddToUrlValues ⟨str "4111111111111111", [], [], []⟩ emptyValues
      = setValue emptyValues (str "x_card_num") [str "4111111111111111"]
    ∧ AuthorizeNetType.AddToUrlValues { Amount := str "5.56" } emptyValues
      = setValue emptyValues (str "x_amount") [str "5.56"]
    ∧ CardInfoType.AddToUrlValues ⟨[], [], [], []⟩ (fixedFields exampleAuth (str "AUTH_ONLY"))
      = fixedFields exampleAuth (str "AUTH_ONLY")
    ∧ AuthorizeNetType.AddToUrlValues { } (fixedFields exampleAuth (str "AUTH_ONLY"))
      = fixedFields exampleAuth (str "AUTH_ONLY") :=
  ⟨(AddToUrlValues_frame ⟨str "4111111111111111", [], [], []⟩ { } emptyValues).2.2.2.2.1
      (str "x_card_num", str "4111111111111111") (by decide) (by decide) (by decide),
   (AddToUrlValues_frame exampleCard { Amount := str "5.56" } emptyValues).2.2.2.2.2
      (str "x_amount", str "5.56") (by decide) (by decide) (by decide),
   (AddToUrlValues_frame ⟨[], [], [], []⟩ { } (fixedFields exampleAuth (str "AUTH_ONLY"))).2.2.1
      (by decide),
   (AddToUrlValues_frame exampleCard { } (fixedFields exampleAuth (str "AUTH_ONLY"))).2.2.2.1
      (by decide)⟩

/-! ## Request building -/

theorem addFields_other_key (fs : List (GoString × GoString)) (P : Values) (k : GoString)
    (hk : k ∉ fs.map Prod.fst) : addFields fs P k = P k :=
  addFields_untouched fs P k
    (fun p hp hp1 => absurd (List.mem_map.2 ⟨p, hp, hp1⟩) hk)

/-- The fixed protocol fields in the parameter set of `Authorize`: seven of
the eight keep the value `initData` gave them for every input, and
`x_method` keeps `CC` only when the card's `Method` is empty; otherwise it
holds the card's `Method`. -/
theorem authorizeRequest_fixed_fields (a : AuthorizeNet) (card : CardInfoType)
    (data : AuthorizeNetType) (emailCustomer : Bool) :
    authorizeRequest a card data emailCustomer (str "x_type") = some [str "AUTH_ONLY"]
    ∧ authorizeRequest a card data emailCustomer (str "x_login") = some [a.Login]
    ∧ authorizeRequest a card data emailCustomer (str "x_tran_key") = some [a.Key]
    ∧ authorizeRequest a card data emailCustomer (str "x_version") = some [str "3.1"]
    ∧ authorizeRequest a card data emailCustomer (str "x_delim_data") = some [str "TRUE"]
    ∧ authorizeRequest a card data emailCustomer (str "x_delim_char") = some [str "|"]
    ∧ authorizeRequest a card data emailCustomer (str "x_encap_char") = some [str "\""]
    ∧ authorizeRequest a card data emailCustomer (str "x_method")
        = some [if card.Method = [] then str "CC" else card.Method] := by
  have hd : ∀ k, k ∉ dataTags → ∀ P : Values, data.AddToUrlValues P k = P k :=
    fun k hk P => addFields_other_key (dataFields data) P k hk
  have hc : ∀ k, k ∉ cardTags → ∀ P : Values, card.AddToUrlValues P k = P k :=
    fun k hk P => addFields_other_key (cardFields card) P k hk
  have key : ∀ k, k ∉ dataTags → k ∉ cardTags → k ≠ str "x_test_request" →
      authorizeRequest a card data emailCustomer k
        = (initData a (str "AUTH_ONLY")
            [str "x_relay_response", str "FALSE", str "x_duplicate_window",
             formatInt a.DupWindow, str "x_email_customer", UpperString emailCustomer]).1 k := by
    intro k h1 h2 h3
    simp only [authorizeRequest, setValue, if_neg h3]
    rw [hd k h1, hc k h2]
  refine ⟨?_, ?_, ?_, ?_, ?_, ?_, ?_, ?_⟩
  · rw [key _ (by decide) (by decide) (by decide)]; rfl
  · rw [key _ (by decide) (by decide) (by decide)]; rfl
  · rw [key _ (by decide) (by decide) (by decide)]; rfl
  · rw [key _ (by decide) (by decide) (by decide)]; rfl
  · rw [key _ (by decide) (by decide) (by decide)]; rfl
  · rw [key _ (by decide) (by decide) (by decide)]; rfl
  · rw [key _ (by decide) (by decide) (by decide)]; rfl
  · have h3 : str "x_method" ≠ str "x_test_request" := by decide
    have hmem : (str "x_method", card.Method) ∈ cardFields card := by
      simp [cardFields, cardTags]
    simp only [authorizeRequest, setValue, if_neg h3]
    rw [hd _ (by decide)]
    obtain ⟨hfr, _⟩ := addFields_frame (cardFields card) (cardTags_nodup card)
      (initData a (str "AUTH_ONLY")
        [str "x_relay_response", str "FALSE", str "x_duplicate_window",
         formatInt a.DupWindow, str "x_email_customer", UpperString emailCustomer]).1
    by_cases hm : card.Method = []
    · rw [if_pos hm]
      exact ((hfr _ hmem).2 hm).trans rfl
    · rw [if_neg hm]
      exact (hfr _ hmem).1 hm

/-- C14: for the card of the published example, whose `Method` is `visa`,
the parameter set `Authorize` builds has `x_method` equal to `visa`, while
`initData` had set it to `CC`: the card field tagged `x_method` overwrites
the fixed protocol field. -/
theorem authorizeRequest_overwrites_x_method :
    (initData exampleAuth (str "AUTH_ONLY") []).1 (str "x_method") = some [str "CC"]
    ∧ authorizeRequest exampleAuth exampleCard exampleData false (str "x_method")
        = some [str "visa"] := by
  decide

/-- C15: the parameter set `CapturePreauth` builds has `x_type` equal to
`PRIOR_AUTH_CAPTURE`, `x_trans_id` equal to the transaction id, and
`x_test_request` equal to `TRUE` or `FALSE` as `TestMode` is set or not; it
has no `x_amount` key when the amount is empty and has `x_amount` equal to
the amount when the amount is not empty. -/
theorem captureRequest_fields (a : AuthorizeNet) (transactionId amount : GoString) :
    captureRequest a transactionId amount (str "x_type") = some [str "PRIOR_AUTH_CAPTURE"]
    ∧ captureRequest a transactionId amount (str "x_trans_id") = some [transactionId]
    ∧ captureRequest a transactionId amount (str "x_test_request")
        = some [if a.TestMode then str "TRUE" else str "FALSE"]
    ∧ (amount = [] → captureRequest a transactionId amount (str "x_amount") = none)
    ∧ (amount ≠ [] → captureRequest a transactionId amount (str "x_amount") = some [amount]) := by
  cases amount with
  | nil => exact ⟨rfl, rfl, rfl, fun _ => rfl, fun h => absurd rfl h⟩
  | cons b bs =>
    refine ⟨rfl, rfl, rfl, ?_, fun _ => rfl⟩
    intro h
    exact absurd h (List.cons_ne_nil b bs)

theorem captureRequest_fields_witness :
    captureRequest exampleAuth (str "TX789") [] (str "x_amount") = none
    ∧ captureRequest exampleAuth (str "TX789") (str "5.56") (str "x_amount")
        = some [str "5.56"]
    ∧ captureRequest exampleAuth (str "TX789") (str "5.56") (str "x_test_request")
        = some [str "TRUE"] :=
  ⟨(captureRequest_fields exampleAuth (str "TX789") []).2.2.2.1 rfl,
   (captureRequest_fields exampleAuth (str "TX789") (str "5.56")).2.2.2.2 (by decide),
   (captureRequest_fields exampleAuth (str "TX789") (str "5.56")).2.2.1⟩

/-- C16: when `http.PostForm` returns an error and a nil response, `Post`
does not return a response: `defer resp.Body.Close()` dereferences the nil
response and the call panics.  For a response with status 500 `Post` returns
an unapproved response with the reason text set and no raw data. -/
theorem Post_connect_failure_panics :
    Post none true = none
    ∧ Post (some ⟨500, some (str "busy")⟩) false
        = some { ReasonText := str "Payment gateway returned an error." }
    ∧ str "Payment gateway returned an error." ≠ [] := by
  decide

theorem initDataLoop_odd : ∀ (ex : List GoString) (rv : Values) (out : List GoString),
    ex.length % 2 = 1 →
    (initDataLoop ex rv out).1 = (initDataLoop ex.dropLast rv out).1
    ∧ (initDataLoop ex rv out).2 = out ++ [needEvenMessage]
    ∧ (initDataLoop ex.dropLast rv out).2 = out
  | [], _, _, h => by simp at h
  | [_], _, _, _ => by simp [initDataLoop]
  | [_, _], _, _, h => by simp at h
  | k :: v :: r :: rs, rv, out, h => by
    have hlen : (r :: rs).length % 2 = 1 := by
      simp only [List.length_cons] at h ⊢
      omega
    have ih := initDataLoop_odd (r :: rs) (setValue rv k [v]) out hlen
    have hd : (k :: v :: r :: rs).dropLast = k :: v :: (r :: rs).dropLast := by
      simp [List.dropLast]
    rw [hd]
    simpa only [initDataLoop] using ih

/-- C17 (the claim as stated fails): for the three overrides `x_trans_id`,
`TX789`, `x_amount`, whose last key is unpaired, `initData` returns exactly
the parameter set it returns for the two overrides `x_trans_id`, `TX789`. -/
theorem initData_drops_unpaired_key_example :
    (initData exampleAuth (str "PRIOR_AUTH_CAPTURE")
        [str "x_trans_id", str "TX789", str "x_amount"]).1
      = (initData exampleAuth (str "PRIOR_AUTH_CAPTURE") [str "x_trans_id", str "TX789"]).1 :=
  rfl

/-- C17 (amended): for every override list of odd length, `initData` returns
the parameter set it returns for the list with its last element removed, and
prints the line `Need even number of parameters in list` once, which the
call on the shortened list does not print. -/
theorem initData_odd_overrides (a : AuthorizeNet) (ty : GoString) (ex : List GoString)
    (hodd : ex.length % 2 = 1) :
    (initData a ty ex).1 = (initData a ty ex.dropLast).1
    ∧ (initData a ty ex).2 = [needEvenMessage]
    ∧ (initData a ty ex.dropLast).2 = [] := by
  simpa [initData] using initDataLoop_odd ex (fixedFields a ty) [] hodd

theorem initData_odd_overrides_witness :
    [str "x_trans_id", str "TX789", str "x_amount"].length % 2 = 1
    ∧ (initData exampleAuth (str "PRIOR_AUTH_CAPTURE")
        [str "x_trans_id", str "TX789", str "x_amount"]).2 = [needEvenMessage]
    ∧ (initData exampleAuth (str "PRIOR_AUTH_CAPTURE")
        [str "x_trans_id", str "TX789", str "x_amount"]).1 (str "x_amount") = none :=
  ⟨by decide,
   (initData_odd_overrides exampleAuth (str "PRIOR_AUTH_CAPTURE")
      [str "x_trans_id", str "TX789", str "x_amount"] (by decide)).2.1,
   by decide⟩

/-- C18: after `Wipe` is called on the card of the published example, the
caller's record is the record it was before the call, with its number, CVV,
expiry and brand; only the receiver's copy has its four fields empty. -/
theorem Wipe_leaves_caller_record :
    (Wipe exampleCard).1 = exampleCard
    ∧ (Wipe exampleCard).1.CreditCardNumber = str "4111111111111111"
    ∧ (Wipe exampleCard).1.CVV = str "555"
    ∧ (Wipe exampleCard).1.Month_Year = str "11/2018"
    ∧ (Wipe exampleCard).1.Method = str "visa"
    ∧ (Wipe exampleCard).2 = ⟨[], [], [], []⟩ := by
  decide

/-! ## Luhn: when the table lookup is out of range -/

theorem deltaAt_none_iff (b : Nat) : deltaAt ((b : Int) - 48) = none ↔ isDigit b = false := by
  unfold deltaAt
  by_cases h1 : 48 ≤ b
  · have hnn : (0 : Int) ≤ (b : Int) - 48 := by omega
    have hto : ((b : Int) - 48).toNat = b - 48 := by omega
    rw [if_pos hnn, hto, List.get?_eq_none]
    simp [DELTA, isDigit, h1]
    omega
  · have hneg : ¬ (0 : Int) ≤ (b : Int) - 48 := by omega
    rw [if_neg hneg]
    simp [isDigit, h1]

theorem lhunLoop_none_iff (l : GoString) (checksum : Int) (bOdd : Bool) :
    lhunLoop l checksum bOdd = none
      ↔ ∃ i b, l.get? i = some b ∧ decide (i % 2 = 1) = !bOdd ∧ isDigit b = false := by
  induction l generalizing checksum bOdd with
  | nil => simp [lhunLoop]
  | cons x r ih =>
    cases bOdd
    · simp only [lhunLoop, Bool.false_eq_true, if_false, Bool.not_false]
      rw [ih]
      constructor
      · rintro ⟨j, b, hj, hpar, hb⟩
        refine ⟨j + 1, b, by simpa using hj, ?_, hb⟩
        simp only [Bool.not_true, decide_eq_false_iff_not] at hpar
        simp only [decide_eq_true_eq]
        omega
      · rintro ⟨i, b, hi, hpar, hb⟩
        simp only [decide_eq_true_eq] at hpar
        cases i with
        | zero => simp at hpar
        | succ j =>
          refine ⟨j, b, by simpa using hi, ?_, hb⟩
          simp only [Bool.not_true, decide_eq_false_iff_not]
          omega
    · simp only [lhunLoop, if_true, Bool.not_true]
      cases hd : deltaAt ((x : Int) - 48) with
      | none =>
        simp only [true_iff]
        exact ⟨0, x, rfl, by simp, (deltaAt_none_iff x).1 hd⟩
      | some d =>
        have hx : isDigit x = true := by
          cases hdig : isDigit x with
          | true => rfl
          | false => rw [(deltaAt_none_iff x).2 hdig] at hd; exact nomatch hd
        simp only
        rw [ih]
        constructor
        · rintro ⟨j, b, hj, hpar, hb⟩
          refine ⟨j + 1, b, by simpa using hj, ?_, hb⟩
          simp only [Bool.not_false, decide_eq_true_eq] at hpar
          simp only [decide_eq_false_iff_not]
          omega
        · rintro ⟨i, b, hi, hpar, hb⟩
          simp only [decide_eq_false_iff_not] at hpar
          cases i with
          | zero =>
            simp only [List.get?_cons_zero, Option.some.injEq] at hi
            rw [hi, hb] at hx
            exact nomatch hx
          | succ j =>
            refine ⟨j, b, by simpa using hi, ?_, hb⟩
            simp only [Bool.not_false, decide_eq_true_eq]
            omega

/-- C19: `CheckCCLhun` does not panic on a string of ASCII digits; it panics
(the lookup `DELTA[cn]` is out of range) exactly when some byte at an odd
offset from the end of the string is not an ASCII digit; and `ValidateCard`
reaches that lookup with a number that is not made of digits: for the visa
number `41111111111111a1` the call panics. -/
theorem CheckCCLhun_lookup_range :
    (∀ s : GoString, s.all isDigit = true → CheckCCLhun s ≠ none)
    ∧ (∀ s : GoString, CheckCCLhun s = none
        ↔ ∃ i b, i % 2 = 1 ∧ s.reverse.get? i = some b ∧ isDigit b = false)
    ∧ ValidateCard id 2018 1
        ⟨str "41111111111111a1", str "555", str "11/2018", METHOD_VISA⟩ = none := by
  refine ⟨?_, ?_, by decide⟩
  · intro s hs
    rw [CheckCCLhun_digits s (List.all_eq_true.1 hs)]
    exact fun h => nomatch h
  · intro s
    have hl := lhunLoop_none_iff s.reverse 0 false
    have hc : CheckCCLhun s = none ↔ lhunLoop s.reverse 0 false = none := by
      unfold CheckCCLhun
      cases lhunLoop s.reverse 0 false <;> simp
    rw [hc, hl]
    constructor
    · rintro ⟨i, b, hi, hpar, hb⟩
      exact ⟨i, b, by simpa using hpar, hi, hb⟩
    · rintro ⟨i, b, hpar, hi, hb⟩
      exact ⟨i, b, hi, by simpa using hpar, hb⟩

theorem CheckCCLhun_lookup_range_witness :
    CheckCCLhun (str "4111111111111111") ≠ none
    ∧ CheckCCLhun (str "41111111111111a1") = none
    ∧ CheckCCLhun (str "411111111111111a") ≠ none :=
  ⟨CheckCCLhun_lookup_range.1 (str "4111111111111111") (by decide),
   (CheckCCLhun_lookup_range.2.1 (str "41111111111111a1")).2 ⟨1, 97, by decide, by decide,
     by decide⟩,
   by decide⟩

/-- C20: when the expiry parses as month `m` and year `y`, and `y` is after
the current year, or `y` is the current year and `m` is after the current
month, `ValidateCard` does not return `ErrExpiredCC`, whatever integer `m`
is: the month is not checked against the range 1 to 12. -/
theorem ValidateCard_month_not_range_checked (uni : GoString → GoString) (cy cm : Int)
    (c : CardInfoType) (a b : GoString) (m y : Int)
    (hsplit : Split 47 c.Month_Year = [a, b]) (hm : Atoi a = some m) (hy : Atoi b = some y)
    (hfut : cy < y ∨ (y = cy ∧ cm < m)) :
    ValidateCard uni cy cm c ≠ some ErrExpiredCC := by
  have h1 := lhunStep_ne_expired c.CreditCardNumber
  have e1 : ¬ y < cy := by omega
  have e2 : ¬ (y = cy ∧ m ≤ cm) := by omega
  simp only [ValidateCard, hsplit, hm, hy, if_neg e1, if_neg e2]
  repeat' split
  all_goals first | exact h1 | exact fun h => nomatch h

theorem ValidateCard_month_not_range_checked_witness :
    ValidateCard id 2018 12
        ⟨str "4111111111111111", str "555", str "13/2019", METHOD_VISA⟩ ≠ some ErrExpiredCC
    ∧ ValidateCard id 2018 12
        ⟨str "4111111111111111", str "555", str "0/2019", METHOD_VISA⟩ ≠ some ErrExpiredCC
    ∧ ValidateCard id 2018 12
        ⟨str "4111111111111111", str "555", str "-5/2019", METHOD_VISA⟩ ≠ some ErrExpiredCC
    ∧ ValidateCard id 2018 12
        ⟨str "4111111111111111", str "555", str "13/2018", METHOD_VISA⟩ ≠ some ErrExpiredCC :=
  ⟨ValidateCard_month_not_range_checked id 2018 12
      ⟨str "4111111111111111", str "555", str "13/2019", METHOD_VISA⟩
      (str "13") (str "2019") 13 2019 (by decide) (by decide) (by decide) (by decide),
   ValidateCard_month_not_range_checked id 2018 12
      ⟨str "4111111111111111", str "555", str "0/2019", METHOD_VISA⟩
      (str "0") (str "2019") 0 2019 (by decide) (by decide) (by decide) (by decide),
   ValidateCard_month_not_range_checked id 2018 12
      ⟨str "4111111111111111", str "555", str "-5/2019", METHOD_VISA⟩
      (str "-5") (str "2019") (-5) 2019 (by decide) (by decide) (by decide) (by decide),
   ValidateCard_month_not_range_checked id 2018 12
      ⟨str "4111111111111111", str "555", str "13/2018", METHOD_VISA⟩
      (str "13") (str "2018") 13 2018 (by decide) (by decide) (by decide) (by decide)⟩

end AuthorizeNet
